import Mathlib

/-!
# Verification of the noaa time-normalization and averaging engine

Shallow embedding of the core: the NWS composite-time parser
(`parseDuration`, `ForecastTime.UnmarshalJSON`), the hourly resampler
(`ForecastTimeseries.hourly` from hourly.go), and the multi-source averager
(`AverageForecast` from average.go, with `newForecastGridResponse` and
`timeseriesMap` from the grid-response module).

Modelling conventions:
* `time.Time` and `time.Duration` are modelled as `Int` counts of minutes
  (minutes since an arbitrary epoch for instants).  `time.Hour` is `60`.
  All durations the engine constructs are whole hours, and Go's
  `int(d.Hours())` truncation toward zero is `Int.tdiv · 60` on minutes
  (exact for the magnitudes the program manipulates; float64 rounding at
  astronomic magnitudes is outside the model).
* `float64` sample values are modelled as exact rationals (`Rat`).
* Go slices of pointers are modelled as lists; a nil pointer that can
  actually occur (`*ForecastTimeseries` fields of a grid response,
  `*ForecastTime` validity) is an `Option`.  Dereferencing `none`, an
  out-of-range index, and `make` with a negative length are runtime panics
  in Go; they are modelled as dedicated error constructors so that every
  run of the embedded code is a total value.
* Go map iteration order is unspecified; the grid response carries a fixed
  set of seven named series, so the per-name maps are modelled with that
  fixed set in source order.  This only fixes which error surfaces first
  when several series would fail, not any successful result.
-/

namespace Noaa

/-- Minutes since epoch, modelling `time.Time`. -/
abbrev GoTime := Int

/-- Minutes, modelling `time.Duration`. -/
abbrev GoDuration := Int

/-- `time.Hour` in minutes. -/
def timeHour : GoDuration := 60

/-- Go `int(d.Hours())`: truncation toward zero of the duration in hours. -/
def hoursTrunc (d : GoDuration) : Int := Int.tdiv d 60

/-- `ForecastTime`: an instant paired with a validity duration. -/
structure ForecastTime where
  time : GoTime
  duration : GoDuration
  deriving Repr, DecidableEq

/-- `ForecastTime.endTime()` — `t.Time.Add(t.Duration)`. -/
def ForecastTime.endTime (t : ForecastTime) : GoTime := t.time + t.duration

/-- `ForecastTimeseriesValue`: one sample of a forecast timeseries. -/
structure ForecastTimeseriesValue where
  time : ForecastTime
  value : Rat
  deriving Repr, DecidableEq

/-- `ForecastTimeseries`: one named, irregular series of samples. -/
structure ForecastTimeseries where
  name : String
  id : String
  units : String
  values : List ForecastTimeseriesValue
  deriving Repr, DecidableEq

/-- `Tmin()` — the first sample's instant (`Values[0].Time.Time`).
Go panics on an empty series; total here, callers guard emptiness. -/
def ForecastTimeseries.Tmin (ts : ForecastTimeseries) : Option GoTime :=
  ts.values.head?.map (fun v => v.time.time)

/-- `Tmax()` — end of the last sample's span
(`Values[len-1].Time.endTime()`). -/
def ForecastTimeseries.Tmax (ts : ForecastTimeseries) : Option GoTime :=
  ts.values.getLast?.map (fun v => v.time.endTime)

/-- `fillInfo` — stamps Name and ID on a timeseries (in Go this mutates
the receiver in place; the caller threads the updated value). -/
def ForecastTimeseries.fillInfo (ts : ForecastTimeseries) (name id : String) :
    ForecastTimeseries :=
  { ts with name := name, id := id }

/-- `forecastElevation`. -/
structure forecastElevation where
  value : Rat
  units : String
  deriving Repr, DecidableEq

/-- `ForecastGridResponse` with its seven named series (nil-able pointers). -/
structure ForecastGridResponse where
  id : String
  updated : String
  validTimes : Option ForecastTime
  elevation : forecastElevation
  temperature : Option ForecastTimeseries
  skyCover : Option ForecastTimeseries
  windSpeed : Option ForecastTimeseries
  precipitationProbability : Option ForecastTimeseries
  precipitationQuantity : Option ForecastTimeseries
  snowFallAmount : Option ForecastTimeseries
  snowLevel : Option ForecastTimeseries
  deriving Repr, DecidableEq

/-- Error/panic outcomes of the engine.  Constructors mirror the distinct
`fmt.Errorf` sites; `panic…` constructors model Go runtime panics. -/
inductive AvgError where
  | noForecasts
  | elevationUnitsMismatch (i : Nat)
  | seriesUnitsMismatch (i : Nat)
  | lengthMismatch (i : Nat)
  | timesMismatch
  | startMismatch
  | endMismatch
  | panicNil
  | panicIndex
  | panicOOB
  | panicMakeSlice
  deriving Repr, DecidableEq

/-- Dereference of a possibly-nil Go pointer. -/
def orPanic : Option α → Except AvgError α
  | some a => .ok a
  | none => .error .panicNil

/-- Decidable equality of run outcomes, so that concrete runs of the
embedded code can be settled by evaluation. -/
instance {ε α : Type} [DecidableEq ε] [DecidableEq α] : DecidableEq (Except ε α) :=
  fun a b =>
    match a, b with
    | .ok x, .ok y =>
        if h : x = y then isTrue (congrArg Except.ok h)
        else isFalse (fun hh => h (Except.ok.inj hh))
    | .error x, .error y =>
        if h : x = y then isTrue (congrArg Except.error h)
        else isFalse (fun hh => h (Except.error.inj hh))
    | .ok _, .error _ => isFalse (fun hh => Except.noConfusion hh)
    | .error _, .ok _ => isFalse (fun hh => Except.noConfusion hh)

end Noaa

namespace Noaa

/-! ## DurationParser (`parseDuration`, `ForecastTime.UnmarshalJSON`) -/

/-- Errors of the composite-time decoder. -/
inductive ParseError where
  | malformedDuration
  | timeParse
  deriving Repr, DecidableEq

/-- `strings.Split` with a one-character separator: segments between
occurrences of the separator (always at least one segment). -/
def splitOnChar (sep : Char) : List Char → List (List Char)
  | [] => [[]]
  | c :: rest =>
      let r := splitOnChar sep rest
      if c = sep then [] :: r
      else
        match r with
        | [] => [[c]]
        | s :: ss => (c :: s) :: ss

/-- `strings.ToLower` (ASCII suffices for the grammar's letters). -/
def lowerChars (s : List Char) : List Char := s.map Char.toLower

/-- Decimal digits to a number (`strconv.Atoi` / the numeric part of
`time.ParseDuration`; integer overflow is outside the model). -/
def digitsToNat (ds : List Char) : Nat :=
  ds.foldl (fun n c => n * 10 + (c.toNat - '0'.toNat)) 0

/-- One optional group of Go's duration regex: greedy digits followed by a
unit letter.  Matches the maximal digit run only if the unit letter
immediately follows it; backtracking to a shorter run can never succeed
because the character after fewer digits is still a digit, so this
deterministic reading coincides with Go's leftmost-first regexp search. -/
def matchNumUnit (unit : Char) (s : List Char) : List Char × List Char :=
  let ds := s.takeWhile Char.isDigit
  let rest := s.dropWhile Char.isDigit
  match rest with
  | u :: rest2 => if ds ≠ [] ∧ u = unit then (ds ++ [u], rest2) else ([], s)
  | [] => ([], s)

/-- The submatch groups of `([0-9]d)?t?([0-9]+h)?([0-9]+m)?` applied with
`FindStringSubmatch`.  Every group is optional, so the leftmost match
always starts at position 0, each greedy group matches if it can, and no
group ever backtracks (the tail of the pattern accepts the empty string). -/
def durationMatch (s : List Char) : List Char × List Char × List Char :=
  let dayGroup : List Char × List Char :=
    match s with
    | c :: d :: rest => if c.isDigit ∧ d = 'd' then ([c, d], rest) else ([], s)
    | _ => ([], s)
  let s1 := dayGroup.2
  let s2 := match s1 with
    | 't' :: rest => rest
    | _ => s1
  let hourGroup := matchNumUnit 'h' s2
  let minuteGroup := matchNumUnit 'm' hourGroup.2
  (dayGroup.1, hourGroup.1, minuteGroup.1)

/-- `parseDuration` (src/unnamed/part_005:205-245): split on the `P`
marker, lowercase, run the duration regex, and sum day/hour components;
a present minute component of at least one minute adds a single hour.
The `len(matches) == 0` branch of the source is unreachable (an
all-optional pattern always yields a match) and is not represented. -/
def parseDuration (t : String) : Except ParseError GoDuration :=
  if !(t.data.contains 'P') then .error .malformedDuration
  else
    let durStr := lowerChars ((splitOnChar 'P' t.data).getD 1 [])
    let m := durationMatch durStr
    let dur : GoDuration := 0
    -- days: Atoi(ReplaceAll(matches[1], "d", "")), then that many 24h
    let dur := if m.1.length > 0 then
        dur + ((digitsToNat (m.1.filter (fun c => c ≠ 'd')) : Int) * 24) * 60
      else dur
    -- hours: time.ParseDuration(ReplaceAll(matches[2], "t", ""))
    let dur := if m.2.1.length > 0 then
        dur + (digitsToNat (m.2.1.takeWhile Char.isDigit) : Int) * 60
      else dur
    -- minutes: rounded up to one extra hour when at least one minute
    let dur := if m.2.2.length > 0 then
        (if (digitsToNat (m.2.2.takeWhile Char.isDigit) : Int) ≥ 1 then dur + 60 else dur)
      else dur
    .ok dur

/-- A wall-clock date-time, the observable content of the `time.Time`
produced by `time.Parse(time.RFC3339, …)` on a `Z`-suffixed literal. -/
structure DateTime where
  year : Nat
  month : Nat
  day : Nat
  hour : Nat
  minute : Nat
  second : Nat
  deriving Repr, DecidableEq

def isLeapYear (y : Nat) : Bool := y % 4 = 0 && (y % 100 ≠ 0 || y % 400 = 0)

def daysInMonth (y m : Nat) : Nat :=
  if m = 2 then (if isLeapYear y then 29 else 28)
  else if m = 4 ∨ m = 6 ∨ m = 9 ∨ m = 11 then 30
  else 31

/-- Fixed-format RFC 3339 parse for `YYYY-MM-DDTHH:MM:SSZ` with the field
range checks `time.Parse` performs. -/
def parseRFC3339 (s : List Char) : Option DateTime :=
  match s with
  | [y1, y2, y3, y4, '-', o1, o2, '-', d1, d2, 'T', h1, h2, ':', n1, n2, ':', e1, e2, 'Z'] =>
      if ([y1, y2, y3, y4, o1, o2, d1, d2, h1, h2, n1, n2, e1, e2].all Char.isDigit) then
        let y := digitsToNat [y1, y2, y3, y4]
        let mo := digitsToNat [o1, o2]
        let d := digitsToNat [d1, d2]
        let h := digitsToNat [h1, h2]
        let mi := digitsToNat [n1, n2]
        let se := digitsToNat [e1, e2]
        if 1 ≤ mo ∧ mo ≤ 12 ∧ 1 ≤ d ∧ d ≤ daysInMonth y mo ∧ h ≤ 23 ∧ mi ≤ 59 ∧ se ≤ 59 then
          some ⟨y, mo, d, h, mi, se⟩
        else none
      else none
  | _ => none

/-- `ForecastTime.UnmarshalJSON` (src/unnamed/part_005:248-264): strip
quotes, keep the text before `+`, truncate the instant to the top of the
hour by keeping the text before the first `:` and appending `:00:00Z`,
parse it as RFC 3339, and parse the duration from the full composite
string. -/
def ForecastTimeUnmarshalJSON (buf : String) : Except ParseError (DateTime × GoDuration) :=
  let ttStr := buf.data.filter (fun c => c ≠ '"')
  let tBase := (splitOnChar '+' ttStr).getD 0 []
  let tBase := ((splitOnChar ':' tBase).getD 0 []) ++ (":00:00Z".data)
  match parseRFC3339 tBase with
  | none => .error .timeParse
  | some tt => (parseDuration (String.mk ttStr)).map (fun d => (tt, d))

end Noaa

namespace Noaa

/-! ## Resampler (`ForecastTimeseries.hourly`, src/hourly.go:31-123)

The output buffer `out := make([]*ForecastTimeseriesValue, Nhours)` is an
array of nil-able slots; `HState` carries it together with the running
write cursor `hr`.  Every Go slice write is bounds-checked by the runtime,
so the write primitives return `panicOOB` exactly where Go would panic
with an index-out-of-range error. -/

/-- The resampler's loop state: the output buffer and the cursor `hr`. -/
structure HState where
  out : List (Option ForecastTimeseriesValue)
  hr : Nat
  deriving Repr, DecidableEq

/-- A synthetic one-hour output slot. -/
def mkSlot (t : GoTime) (v : Rat) : ForecastTimeseriesValue :=
  { time := { time := t, duration := timeHour }, value := v }

/-- `out[hr] = slot; hr++` with Go's runtime bounds check. -/
def pushSlot (st : HState) (slot : ForecastTimeseriesValue) : Except AvgError HState :=
  if st.hr < st.out.length then
    .ok { out := st.out.set st.hr (some slot), hr := st.hr + 1 }
  else .error .panicOOB

/-- `out[idx] = slot` without moving the cursor (the end-padding loop
indexes `out[hr+i-1]` and never increments `hr`). -/
def setSlot (st : HState) (idx : Nat) (slot : ForecastTimeseriesValue) : Except AvgError HState :=
  if idx < st.out.length then
    .ok { out := st.out.set idx (some slot), hr := st.hr }
  else .error .panicOOB

/-- Read `out[idx]` and dereference it (index panic out of range, nil
panic on an unwritten slot). -/
def readSlot (st : HState) (idx : Nat) : Except AvgError ForecastTimeseriesValue :=
  match st.out[idx]? with
  | some (some v) => .ok v
  | some none => .error .panicNil
  | none => .error .panicIndex

/-- The interior gap-filling step (src/hourly.go:54-68): when the cursor
has started but not finished, carry the previously written value forward
one hour at a time for `hrsInterpolate - 1` steps. -/
def gapFill (Nhours : Nat) (st : HState) (v : ForecastTimeseriesValue) :
    Except AvgError HState :=
  if 0 < st.hr ∧ st.hr < Nhours then do
    let lastValue ← readSlot st (st.hr - 1)
    let hrsInterpolate : Int := hoursTrunc (v.time.time - lastValue.time.time)
    (List.range (hrsInterpolate - 1).toNat).foldlM
      (fun st (j : Nat) =>
        pushSlot st (mkSlot (lastValue.time.time + timeHour * ((j : Int) + 1)) lastValue.value))
      st
  else pure st

/-- The span-expansion step (src/hourly.go:69-85): emit one slot per whole
hour of the value's span, silently dropping slots once the buffer is full
(`hr >= Nhours` breaks out of the loop). -/
def spanFill (Nhours : Nat) (st : HState) (v : ForecastTimeseriesValue) :
    Except AvgError HState :=
  (List.range (hoursTrunc v.time.duration).toNat).foldlM
    (fun st (i : Nat) =>
      if st.hr ≥ Nhours then pure st
      else pushSlot st (mkSlot (v.time.time + timeHour * (i : Int)) v.value))
    st

/-- `ForecastTimeseries.hourly` (src/hourly.go:31-123). -/
def hourly (ts : ForecastTimeseries) (tMin tMax : GoTime) :
    Except AvgError ForecastTimeseries := do
  let NhoursZ : Int := hoursTrunc (tMax - tMin) + 1
  -- make([]*ForecastTimeseriesValue, Nhours) panics on a negative length
  if NhoursZ < 0 then throw .panicMakeSlice
  let Nhours : Nat := NhoursZ.toNat
  -- firstValueSeries := ts.Values[0] (runtime panic on an empty series)
  let firstValueSeries ← match ts.values with
    | [] => throw .panicIndex
    | v :: _ => pure v
  let padHoursStart : Int := hoursTrunc (firstValueSeries.time.time - tMin)
  let st0 : HState := { out := List.replicate Nhours none, hr := 0 }
  -- leading backward-fill with the first value (src/hourly.go:43-52)
  let st1 ← (List.range padHoursStart.toNat).foldlM
    (fun st (i : Nat) => pushSlot st (mkSlot (tMin + timeHour * (i : Int)) firstValueSeries.value))
    st0
  -- walk the original values: interior gap fill, then span expansion
  let st2 ← ts.values.foldlM
    (fun st t => do
      let st ← gapFill Nhours st t
      spanFill Nhours st t)
    st1
  -- end padding (src/hourly.go:87-98): lastValue := out[hr-1]
  if st2.hr = 0 then throw .panicIndex
  let lastValue ← readSlot st2 (st2.hr - 1)
  let padHoursEnd : Int := (Nhours : Int) - (st2.hr : Int)
  let st3 ← (List.range padHoursEnd.toNat).foldlM
    (fun st (i : Nat) =>
      setSlot st (st2.hr + i) (mkSlot (lastValue.time.time + timeHour * ((i : Int) + 1)) lastValue.value))
    st2
  -- boundary checks (src/hourly.go:99-116)
  let firstHourlyValue ← readSlot st3 0
  if Nhours = 0 then throw .panicIndex
  let lastHourlyValue ← readSlot st3 (Nhours - 1)
  if firstHourlyValue.time.time ≠ tMin then throw .startMismatch
  if lastHourlyValue.time.time ≠ tMax then throw .endMismatch
  -- the returned Go slice; whenever the boundary checks are reachable the
  -- buffer is fully populated (writes always extend a solid block from
  -- index 0), so reading every slot back mirrors returning the slice
  let values ← st3.out.mapM (fun o => orPanic o)
  return { name := ts.name, id := ts.id, units := ts.units, values := values }

end Noaa

namespace Noaa

/-! ## Averager (`AverageForecast`, src/average.go:9-59, with
`timeseriesMap` and `newForecastGridResponse` from the grid-response
module, src/unnamed/part_003:110-134)

`timeseriesMap` stamps Name/ID onto the forecast's own series via
`fillInfo` (an in-place mutation in Go), so the embedding returns the
updated forecast alongside the per-name view, and `AverageForecast`
returns the post-call state of its inputs next to the averaged result.
The Go maps keyed by the seven fixed series names are modelled by the
`SeriesArrays` record (collection) and an association list (result map);
Go's unspecified map iteration order is fixed to source order, which only
pins which of several failing series reports its error first. -/

/-- The seven series names in the order `timeseriesMap` lists them. -/
def seriesNames : List String :=
  ["Temperature", "SkyCover", "WindSpeed", "PrecipitationProbability",
   "PrecipitationQuantity", "SnowFallAmount", "SnowLevel"]

/-- `timeseriesMap` (src/unnamed/part_003:110-120): build the name-keyed
view of the seven series, stamping Name and ID onto each (mutating the
forecast's series in place).  Dereferencing a missing series is a nil
panic. -/
def timeseriesMap (f : ForecastGridResponse) :
    Except AvgError (ForecastGridResponse × List (String × ForecastTimeseries)) := do
  let temperature := (← orPanic f.temperature).fillInfo "Temperature" f.id
  let skyCover := (← orPanic f.skyCover).fillInfo "SkyCover" f.id
  let windSpeed := (← orPanic f.windSpeed).fillInfo "WindSpeed" f.id
  let precipitationProbability :=
    (← orPanic f.precipitationProbability).fillInfo "PrecipitationProbability" f.id
  let precipitationQuantity :=
    (← orPanic f.precipitationQuantity).fillInfo "PrecipitationQuantity" f.id
  let snowFallAmount := (← orPanic f.snowFallAmount).fillInfo "SnowFallAmount" f.id
  let snowLevel := (← orPanic f.snowLevel).fillInfo "SnowLevel" f.id
  let f' : ForecastGridResponse :=
    { f with
      temperature := some temperature, skyCover := some skyCover,
      windSpeed := some windSpeed,
      precipitationProbability := some precipitationProbability,
      precipitationQuantity := some precipitationQuantity,
      snowFallAmount := some snowFallAmount, snowLevel := some snowLevel }
  return (f', [("Temperature", temperature), ("SkyCover", skyCover),
    ("WindSpeed", windSpeed), ("PrecipitationProbability", precipitationProbability),
    ("PrecipitationQuantity", precipitationQuantity),
    ("SnowFallAmount", snowFallAmount), ("SnowLevel", snowLevel)])

/-- `timeseriesArrays`, the per-name collection of series across the
input forecasts. -/
structure SeriesArrays where
  temperature : List ForecastTimeseries := []
  skyCover : List ForecastTimeseries := []
  windSpeed : List ForecastTimeseries := []
  precipitationProbability : List ForecastTimeseries := []
  precipitationQuantity : List ForecastTimeseries := []
  snowFallAmount : List ForecastTimeseries := []
  snowLevel : List ForecastTimeseries := []
  deriving Repr, DecidableEq

/-- `timeseriesArrays[k] = append(timeseriesArrays[k], ts)` for the seven
entries `timeseriesMap` yields for one forecast. -/
def appendArrays (a : SeriesArrays)
    (p : List (String × ForecastTimeseries)) : SeriesArrays :=
  p.foldl
    (fun a kv =>
      if kv.1 = "Temperature" then { a with temperature := a.temperature ++ [kv.2] }
      else if kv.1 = "SkyCover" then { a with skyCover := a.skyCover ++ [kv.2] }
      else if kv.1 = "WindSpeed" then { a with windSpeed := a.windSpeed ++ [kv.2] }
      else if kv.1 = "PrecipitationProbability" then
        { a with precipitationProbability := a.precipitationProbability ++ [kv.2] }
      else if kv.1 = "PrecipitationQuantity" then
        { a with precipitationQuantity := a.precipitationQuantity ++ [kv.2] }
      else if kv.1 = "SnowFallAmount" then
        { a with snowFallAmount := a.snowFallAmount ++ [kv.2] }
      else { a with snowLevel := a.snowLevel ++ [kv.2] })
    a

/-- Go map lookup `m[k]`, returning nil when the key is absent. -/
def lookupTs (m : List (String × ForecastTimeseries)) (k : String) :
    Option ForecastTimeseries :=
  (m.find? (fun p => p.1 = k)).map (fun p => p.2)

/-- `newForecastGridResponse` (src/unnamed/part_003:122-134): assemble a
grid response from an updated stamp, an elevation and the name-keyed
series map.  The source omits the WindSpeed assignment, so that field of
the result is nil; ID and ValidTimes are likewise never set. -/
def newForecastGridResponse (updated : String) (elevation : forecastElevation)
    (tsMap : List (String × ForecastTimeseries)) :
    Except AvgError ForecastGridResponse :=
  .ok { id := "", updated := updated, validTimes := none, elevation := elevation,
        temperature := lookupTs tsMap "Temperature",
        skyCover := lookupTs tsMap "SkyCover",
        windSpeed := none,
        precipitationProbability := lookupTs tsMap "PrecipitationProbability",
        precipitationQuantity := lookupTs tsMap "PrecipitationQuantity",
        snowFallAmount := lookupTs tsMap "SnowFallAmount",
        snowLevel := lookupTs tsMap "SnowLevel" }

/-- The pointwise accumulation loop of `averageForecastTimeseries`
(src/average.go:170-184): `avgValues[e].Value += elem.Value / N` after the
exact `ForecastTime` equality check; iterating past the end of
`avgValues` would be an index panic (unreachable after the length
check). -/
def addValues (n : Rat) :
    List ForecastTimeseriesValue → List ForecastTimeseriesValue →
    Except AvgError (List ForecastTimeseriesValue)
  | [], av => .ok av
  | _ :: _, [] => .error .panicIndex
  | e :: hs, a :: as => do
      if e.time ≠ a.time then throw .timesMismatch
      let as' ← addValues n hs as
      return { a with value := a.value + e.value / n } :: as'

/-- The per-source loop of `averageForecastTimeseries`
(src/average.go:151-185). -/
def avgTsLoop (n : Rat) (baseUnits : String) (tsMin tsMax : GoTime) :
    List ForecastTimeseries → Nat → List ForecastTimeseriesValue →
    Except AvgError (List ForecastTimeseriesValue)
  | [], _, avgValues => .ok avgValues
  | fcst :: rest, i, avgValues => do
      if fcst.units ≠ baseUnits then throw (.seriesUnitsMismatch i)
      let fcstHourly ← hourly fcst tsMin tsMax
      if fcstHourly.values.length ≠ avgValues.length then throw (.lengthMismatch i)
      let avgValues ← addValues n fcstHourly.values avgValues
      avgTsLoop n baseUnits tsMin tsMax rest (i + 1) avgValues

/-- `averageForecastTimeseries` (src/average.go:139-187): resample the
first series to fix the hourly time base, zero an accumulator over those
instants, then fold every source in, checking units, length and exact
time alignment.  `rootForecasts` only feeds the error messages. -/
def averageForecastTimeseries (key : String) (forecasts : List ForecastTimeseries)
    (tsMin tsMax : GoTime) (rootForecasts : List ForecastGridResponse) :
    Except AvgError ForecastTimeseries := do
  let n : Rat := (forecasts.length : Rat)
  let first ← match forecasts with
    | [] => throw .panicIndex
    | f :: _ => pure f
  let fcstBase ← hourly first tsMin tsMax
  let baseUnits := fcstBase.units
  let avgValues := fcstBase.values.map
    (fun e => ({ time := e.time, value := 0 } : ForecastTimeseriesValue))
  let avgValues ← avgTsLoop n baseUnits tsMin tsMax forecasts 0 avgValues
  return { name := "", id := "", units := baseUnits, values := avgValues }

/-- The per-forecast loop of `AverageForecast` (src/average.go:20-40):
elevation-unit check, elevation accumulation, series collection (with the
in-place Name/ID stamping), and the validity-window fold.  Returns the
window, the mean elevation, the collected series and the post-call state
of the inputs. -/
def avgLoop (n : Rat) (baseElevationUnits : String) :
    List ForecastGridResponse → Nat → GoTime → GoTime → Rat → SeriesArrays →
    List ForecastGridResponse →
    Except AvgError (GoTime × GoTime × Rat × SeriesArrays × List ForecastGridResponse)
  | [], _, tsMin, tsMax, meanElevation, arrays, post =>
      .ok (tsMin, tsMax, meanElevation, arrays, post.reverse)
  | fcst :: rest, i, tsMin, tsMax, meanElevation, arrays, post => do
      if fcst.elevation.units ≠ baseElevationUnits then throw (.elevationUnitsMismatch i)
      let meanElevation := meanElevation + fcst.elevation.value / n
      let (fcst', pairs) ← timeseriesMap fcst
      let arrays := appendArrays arrays pairs
      let validTimes ← orPanic fcst.validTimes
      let tsMin := if validTimes.time < tsMin then validTimes.time else tsMin
      let tsMax := if validTimes.endTime > tsMax then validTimes.endTime else tsMax
      avgLoop n baseElevationUnits rest (i + 1) tsMin tsMax meanElevation arrays
        (fcst' :: post)

/-- `AverageForecast` (src/average.go:9-59).  The `debug` parameter only
drives `fmt.Println` logging in the source and has no semantic effect.
The returned pair is (post-call state of the inputs, averaged result):
Go mutates the input forecasts' series Name/ID fields through
`timeseriesMap`, which the first component makes observable. -/
def AverageForecast (forecasts : List ForecastGridResponse) (debug : Bool) :
    Except AvgError (List ForecastGridResponse × ForecastGridResponse) := do
  match forecasts with
  | [] => throw .noForecasts
  | f0 :: _ =>
    let n : Rat := (forecasts.length : Rat)
    -- tsMin := forecasts[0].Temperature.Values[0].Time.Time (and tsMax)
    let temperature0 ← orPanic f0.temperature
    let seed ← match temperature0.values with
      | [] => throw .panicIndex
      | v :: _ => pure v.time.time
    let baseElevationUnits := f0.elevation.units
    let (tsMin, tsMax, meanElevation, arrays, post) ←
      avgLoop n baseElevationUnits forecasts 0 seed seed 0 {} []
    let meanTemperature ←
      averageForecastTimeseries "Temperature" arrays.temperature tsMin tsMax forecasts
    let meanSkyCover ←
      averageForecastTimeseries "SkyCover" arrays.skyCover tsMin tsMax forecasts
    let meanWindSpeed ←
      averageForecastTimeseries "WindSpeed" arrays.windSpeed tsMin tsMax forecasts
    let meanPrecipitationProbability ←
      averageForecastTimeseries "PrecipitationProbability"
        arrays.precipitationProbability tsMin tsMax forecasts
    let meanPrecipitationQuantity ←
      averageForecastTimeseries "PrecipitationQuantity"
        arrays.precipitationQuantity tsMin tsMax forecasts
    let meanSnowFallAmount ←
      averageForecastTimeseries "SnowFallAmount" arrays.snowFallAmount tsMin tsMax forecasts
    let meanSnowLevel ←
      averageForecastTimeseries "SnowLevel" arrays.snowLevel tsMin tsMax forecasts
    let meanTimeseries :=
      [("Temperature", meanTemperature), ("SkyCover", meanSkyCover),
       ("WindSpeed", meanWindSpeed),
       ("PrecipitationProbability", meanPrecipitationProbability),
       ("PrecipitationQuantity", meanPrecipitationQuantity),
       ("SnowFallAmount", meanSnowFallAmount), ("SnowLevel", meanSnowLevel)]
    let result ← newForecastGridResponse f0.updated
      { value := meanElevation, units := f0.elevation.units } meanTimeseries
    return (post, result)


/-- The window AverageForecast actually computes: seeded with the first
forecast's first Temperature instant, then folded over the advertised
validity windows only (src/average.go:14-15 and 34-39). -/
def goWindow (fs : List ForecastGridResponse) : Option (GoTime × GoTime) := do
  let f0 ← fs.head?
  let t0 ← f0.temperature
  let v0 ← t0.values.head?
  fs.foldlM
    (fun (w : GoTime × GoTime) f => do
      let vt ← f.validTimes
      pure (if vt.time < w.1 then vt.time else w.1,
        if vt.endTime > w.2 then vt.endTime else w.2))
    (v0.time.time, v0.time.time)

end Noaa

namespace Noaa

/-! ## Definitions supporting the claims -/

/-- The data-model invariant the resampler claims quantify over: spans
are nonnegative and non-overlapping — each sample's span ends no later
than the next sample's instant — which makes the instants sorted
ascending as well. -/
def ValidSeries : List ForecastTimeseriesValue → Prop
  | [] => True
  | [v] => 0 ≤ v.time.duration
  | v :: w :: rest =>
      0 ≤ v.time.duration ∧ v.time.endTime ≤ w.time.time ∧ ValidSeries (w :: rest)

instance instValidSeriesDec : ∀ vals, Decidable (ValidSeries vals)
  | [] => isTrue trivial
  | [v] => inferInstanceAs (Decidable (0 ≤ v.time.duration))
  | v :: w :: rest =>
      have := instValidSeriesDec (w :: rest)
      inferInstanceAs (Decidable (_ ∧ _ ∧ _))

/-- The window bounds and every sample instant lie on one common hourly
grid. -/
def HourAligned (tMin tMax : GoTime) (vals : List ForecastTimeseriesValue) : Prop :=
  (60 : Int) ∣ (tMax - tMin) ∧ ∀ v ∈ vals, (60 : Int) ∣ (v.time.time - tMin)

instance (tMin tMax : GoTime) (vals : List ForecastTimeseriesValue) :
    Decidable (HourAligned tMin tMax vals) :=
  inferInstanceAs (Decidable
    ((60 : Int) ∣ (tMax - tMin) ∧ ∀ v ∈ vals, (60 : Int) ∣ (v.time.time - tMin)))

/-- A series whose interior sample at minute 90 is valid input (sorted,
non-overlapping, nonnegative spans) but sits off the hourly grid. -/
def c2Series : ForecastTimeseries :=
  { name := "Temperature", id := "ep", units := "u",
    values := [⟨⟨0, 60⟩, 1⟩, ⟨⟨90, 60⟩, 2⟩, ⟨⟨150, 60⟩, 3⟩] }

/-- A valid series with a nine-hour interior gap feeding a two-slot
window. -/
def c10Series : ForecastTimeseries :=
  { name := "Temperature", id := "ep", units := "u",
    values := [⟨⟨0, 60⟩, 1⟩, ⟨⟨600, 60⟩, 2⟩] }

/-- A dense hourly series over [0, 120]: the witness input for the
amended resampler boundary claim. -/
def c2DenseSeries : ForecastTimeseries :=
  { name := "Temperature", id := "ep", units := "u",
    values := [⟨⟨0, 60⟩, 1⟩, ⟨⟨60, 60⟩, 2⟩, ⟨⟨120, 60⟩, 3⟩] }

/-- A one-sample series used by the concrete averager inputs. -/
def flatSeries (v : Rat) : ForecastTimeseries :=
  { name := "", id := "", units := "u", values := [⟨⟨0, 60⟩, v⟩] }

/-- A well-formed grid forecast with all seven series present. -/
def flatGrid (id updated : String) (elevationUnits : String) (elevation : Rat)
    (s : ForecastTimeseries) : ForecastGridResponse :=
  { id := id, updated := updated, validTimes := some ⟨0, 60⟩,
    elevation := ⟨elevation, elevationUnits⟩,
    temperature := some s, skyCover := some s, windSpeed := some s,
    precipitationProbability := some s, precipitationQuantity := some s,
    snowFallAmount := some s, snowLevel := some s }

/-- Concrete input for the series-map claim. -/
def gridC3 : ForecastGridResponse := flatGrid "g3" "upd3" "m" 10 (flatSeries 4)

/-- Concrete input whose Temperature series carries a sentinel Name. -/
def gridC4 : ForecastGridResponse :=
  flatGrid "g4" "upd4" "m" 10 { flatSeries 4 with name := "zz" }

/-- A series covering two hours from minute 0, used as the overlong
SkyCover series of gridC1. -/
def c1LongSeries : ForecastTimeseries :=
  { name := "", id := "", units := "u", values := [⟨⟨0, 120⟩, 2⟩] }

/-- Concrete input whose SkyCover series extends one hour past the
one-hour advertised validity window. -/
def gridC1 : ForecastGridResponse :=
  { flatGrid "g1" "upd1" "m" 5 (flatSeries 4) with skyCover := some c1LongSeries }

/-- A two-hour flat series for the commutativity inputs. -/
def longSeries (v : Rat) : ForecastTimeseries :=
  { name := "", id := "", units := "u", values := [⟨⟨0, 120⟩, v⟩] }

/-- Commutativity input A (updated stamp "ua"). -/
def gridA5 : ForecastGridResponse :=
  { flatGrid "ga" "ua" "m" 10 (longSeries 4) with validTimes := some ⟨0, 120⟩ }

/-- Commutativity input B (updated stamp "ub"). -/
def gridB5 : ForecastGridResponse :=
  { flatGrid "gb" "ub" "m" 20 (longSeries 8) with validTimes := some ⟨0, 120⟩ }

/-- Elevation-unit-mismatch inputs: metres versus feet. -/
def gridC9m : ForecastGridResponse := flatGrid "g9a" "u9a" "m" 10 (flatSeries 4)

def gridC9ft : ForecastGridResponse := flatGrid "g9b" "u9b" "ft" 3 (flatSeries 6)

/-- A metres-unit forecast missing its SkyCover series. -/
def gridC9missing : ForecastGridResponse :=
  { flatGrid "g9c" "u9c" "m" 10 (flatSeries 4) with skyCover := none }

/-- The Name/ID stamping `timeseriesMap` performs on a forecast's own
series. -/
def stampGrid (f : ForecastGridResponse) : ForecastGridResponse :=
  { f with
    temperature := f.temperature.map (fun ts => ts.fillInfo "Temperature" f.id),
    skyCover := f.skyCover.map (fun ts => ts.fillInfo "SkyCover" f.id),
    windSpeed := f.windSpeed.map (fun ts => ts.fillInfo "WindSpeed" f.id),
    precipitationProbability :=
      f.precipitationProbability.map (fun ts => ts.fillInfo "PrecipitationProbability" f.id),
    precipitationQuantity :=
      f.precipitationQuantity.map (fun ts => ts.fillInfo "PrecipitationQuantity" f.id),
    snowFallAmount := f.snowFallAmount.map (fun ts => ts.fillInfo "SnowFallAmount" f.id),
    snowLevel := f.snowLevel.map (fun ts => ts.fillInfo "SnowLevel" f.id) }

/-- Forget the Name and ID fields of every series of a forecast. -/
def eraseSeriesInfo (f : ForecastGridResponse) : ForecastGridResponse :=
  { f with
    temperature := f.temperature.map (fun ts => { ts with name := "", id := "" }),
    skyCover := f.skyCover.map (fun ts => { ts with name := "", id := "" }),
    windSpeed := f.windSpeed.map (fun ts => { ts with name := "", id := "" }),
    precipitationProbability :=
      f.precipitationProbability.map (fun ts => { ts with name := "", id := "" }),
    precipitationQuantity :=
      f.precipitationQuantity.map (fun ts => { ts with name := "", id := "" }),
    snowFallAmount := f.snowFallAmount.map (fun ts => { ts with name := "", id := "" }),
    snowLevel := f.snowLevel.map (fun ts => { ts with name := "", id := "" }) }

/-- The slot stored at index `i` of the resampler state (nil transparent). -/
def slotAt (st : HState) (i : Nat) : Option ForecastTimeseriesValue :=
  (st.out[i]?).join

/-- The instant of the most recently written slot. -/
def lastInst (st : HState) : Option GoTime :=
  (slotAt st (st.hr - 1)).map (fun v => v.time.time)

/-- Resampler loop invariant: the buffer has its allocated length, the
cursor is within bounds, and the written prefix carries consecutive
hourly instants from a grid-aligned base. -/
def HInvP (N : Nat) (tMin : GoTime) (st : HState) : Prop :=
  st.out.length = N ∧ st.hr ≤ N ∧
  (0 < st.hr → ∃ base : GoTime, (60 : Int) ∣ (base - tMin) ∧
    ∀ i, i < st.hr → ∃ v, slotAt st i = some v ∧ v.time.time = base + 60 * i)


/-- Whether an engine outcome is the elevation-units mismatch error. -/
def AvgError.isElevMismatch : AvgError → Bool
  | .elevationUnitsMismatch _ => true
  | _ => false

/-- The index of the first forecast whose elevation-unit string differs
from `u`, if any. -/
def firstBadUnits (u : String) : List ForecastGridResponse → Option Nat
  | [] => none
  | f :: fs => if f.elevation.units ≠ u then some 0 else (firstBadUnits u fs).map (· + 1)

/-- A grid forecast carrying all seven series and an advertised validity
window, so that `timeseriesMap` and the window fold cannot nil-panic. -/
def WFGrid (f : ForecastGridResponse) : Prop :=
  f.temperature.isSome = true ∧ f.skyCover.isSome = true ∧
  f.windSpeed.isSome = true ∧ f.precipitationProbability.isSome = true ∧
  f.precipitationQuantity.isSome = true ∧ f.snowFallAmount.isSome = true ∧
  f.snowLevel.isSome = true ∧ f.validTimes.isSome = true

instance (f : ForecastGridResponse) : Decidable (WFGrid f) := by
  unfold WFGrid
  infer_instance

/-- Well-formedness of the forecast stored at index `k` (trivial past the
end). -/
def WFAt (fs : List ForecastGridResponse) (k : Nat) : Prop :=
  match fs[k]? with
  | some f => WFGrid f
  | none => True

instance (fs : List ForecastGridResponse) (k : Nat) : Decidable (WFAt fs k) := by
  unfold WFAt
  cases fs[k]? with
  | none => exact inferInstanceAs (Decidable True)
  | some f => exact inferInstanceAs (Decidable (WFGrid f))


/-- The pointwise accumulation step of `addValues`. -/
def accStep (n : Rat) (e acc : ForecastTimeseriesValue) : ForecastTimeseriesValue :=
  { time := acc.time, value := acc.value + e.value / n }

/-- The zeroed accumulator slot `averageForecastTimeseries` starts from. -/
def zeroSlot (e : ForecastTimeseriesValue) : ForecastTimeseriesValue :=
  { time := e.time, value := 0 }

/-- The value a successful two-source series average produces, in terms
of the two resampled sources. -/
def pairAvg (hA hB : ForecastTimeseries) : ForecastTimeseries :=
  { name := "", id := "", units := hA.units,
    values := List.zipWith (accStep ((2 : Nat) : Rat)) hB.values
      (List.zipWith (accStep ((2 : Nat) : Rat)) hA.values
        (hA.values.map zeroSlot)) }

/-- Commutativity inputs sharing the updated stamp and the seed. -/
def gridA5c : ForecastGridResponse :=
  { flatGrid "ga" "uc" "m" 10 (longSeries 4) with validTimes := some ⟨0, 120⟩ }

def gridB5c : ForecastGridResponse :=
  { flatGrid "gb" "uc" "m" 20 (longSeries 8) with validTimes := some ⟨0, 120⟩ }

end Noaa

namespace Noaa

/-! ## Helper lemmas about runs of the resampler -/

/-- Splitting a successful Except bind into its successful stages. -/
theorem exceptBind_ok {ε α β : Type} {e : Except ε α} {k : α → Except ε β} {b : β}
    (h : (e >>= k) = .ok b) : ∃ a, e = .ok a ∧ k a = .ok b := by
  cases e with
  | ok a => exact ⟨a, rfl, h⟩
  | error err => exact Except.noConfusion h

/-- A successful pure/ok is an equality. -/
theorem exceptPure_ok {ε α : Type} {a b : α}
    (h : (pure a : Except ε α) = .ok b) : a = b :=
  Except.ok.inj h

theorem pushSlot_ok {st st' : HState} {slot : ForecastTimeseriesValue}
    (h : pushSlot st slot = .ok st') :
    st.hr < st.out.length ∧ st' = ⟨st.out.set st.hr (some slot), st.hr + 1⟩ := by
  unfold pushSlot at h
  split at h
  · exact ⟨by assumption, (Except.ok.inj h).symm⟩
  · exact absurd h (by simp)

theorem setSlot_ok {st st' : HState} {idx : Nat} {slot : ForecastTimeseriesValue}
    (h : setSlot st idx slot = .ok st') :
    idx < st.out.length ∧ st' = ⟨st.out.set idx (some slot), st.hr⟩ := by
  unfold setSlot at h
  split at h
  · exact ⟨by assumption, (Except.ok.inj h).symm⟩
  · exact absurd h (by simp)

theorem readSlot_ok {st : HState} {i : Nat} {v : ForecastTimeseriesValue}
    (h : readSlot st i = .ok v) : slotAt st i = some v := by
  unfold readSlot at h
  unfold slotAt
  cases hg : st.out[i]? with
  | none => rw [hg] at h; exact absurd h (by simp)
  | some o =>
      cases o with
      | none => rw [hg] at h; exact absurd h (by simp)
      | some w => rw [hg] at h; simp at h; simp [hg, Option.join, h]

theorem slotAt_of_readSlot {st : HState} {i : Nat} {v : ForecastTimeseriesValue}
    (h : slotAt st i = some v) : readSlot st i = .ok v := by
  unfold slotAt at h
  unfold readSlot
  cases hg : st.out[i]? with
  | none => rw [hg] at h; simp [Option.join] at h
  | some o =>
      cases o with
      | none => rw [hg] at h; simp [Option.join] at h
      | some w => rw [hg] at h; simp [Option.join] at h; rw [h]

/-- Characterization of an unguarded run of `pushSlot` writes over
`List.range m`. -/
theorem pushRange_ok :
    ∀ (m : Nat) (mk : Nat → ForecastTimeseriesValue) (st st' : HState),
    st.hr ≤ st.out.length →
    (List.range m).foldlM (fun s j => pushSlot s (mk j)) st = .ok st' →
    st'.out.length = st.out.length ∧ st'.hr = st.hr + m ∧ st'.hr ≤ st.out.length ∧
    (∀ i, i < st.hr → slotAt st' i = slotAt st i) ∧
    (∀ j, j < m → slotAt st' (st.hr + j) = some (mk j)) := by
  intro m
  induction m with
  | zero =>
      intro mk st st' hle h
      simp only [List.range_zero, List.foldlM_nil] at h
      obtain rfl : st = st' := exceptPure_ok h
      exact ⟨rfl, by omega, hle, fun i _ => rfl, by omega⟩
  | succ m ih =>
      intro mk st st' hle h
      rw [List.range_succ_eq_map, List.foldlM_cons] at h
      obtain ⟨st1, h1, h2⟩ := exceptBind_ok h
      rw [List.foldlM_map] at h2
      obtain ⟨hlt, hst1⟩ := pushSlot_ok h1
      subst hst1
      have ih' := ih (fun j => mk (Nat.succ j)) _ st' (by simpa using hlt) h2
      simp only [List.length_set] at ih'
      obtain ⟨ihlen, ihhr, ihle, ihpres, ihnew⟩ := ih'
      refine ⟨ihlen, by omega, ihle, ?_, ?_⟩
      · intro i hi
        rw [ihpres i (by omega)]
        unfold slotAt
        simp [List.getElem?_set_ne (by omega : st.hr ≠ i)]
      · intro j hj
        cases j with
        | zero =>
            rw [show st.hr + 0 = st.hr from rfl]
            rw [ihpres st.hr (by omega)]
            unfold slotAt
            simp [List.getElem?_set_self, hlt, Option.join]
        | succ j =>
            have := ihnew j (by omega)
            rw [show st.hr + (j + 1) = st.hr + 1 + j by omega]
            exact this

/-- Characterization of a guarded run of `pushSlot` writes (the span
loop's cut-off at a full buffer): it never fails, advances the cursor to
`min (hr + k) N`, and writes consecutive slots until the buffer is
full. -/
theorem spanRange_ok (N : Nat) :
    ∀ (k : Nat) (mk : Nat → ForecastTimeseriesValue) (st st' : HState),
    st.out.length = N → st.hr ≤ N →
    (List.range k).foldlM
      (fun s i => if s.hr ≥ N then pure s else pushSlot s (mk i)) st = .ok st' →
    st'.out.length = N ∧ st'.hr = min (st.hr + k) N ∧
    (∀ i, i < st.hr → slotAt st' i = slotAt st i) ∧
    (∀ j, st.hr + j < st'.hr → slotAt st' (st.hr + j) = some (mk j)) := by
  intro k
  induction k with
  | zero =>
      intro mk st st' hlen hle h
      simp only [List.range_zero, List.foldlM_nil] at h
      obtain rfl : st = st' := exceptPure_ok h
      exact ⟨hlen, by omega, fun i _ => rfl, by omega⟩
  | succ k ih =>
      intro mk st st' hlen hle h
      rw [List.range_succ_eq_map, List.foldlM_cons] at h
      obtain ⟨st1, h1, h2⟩ := exceptBind_ok h
      rw [List.foldlM_map] at h2
      by_cases hfull : st.hr ≥ N
      · rw [if_pos hfull] at h1
        obtain rfl : st = st1 := exceptPure_ok h1
        have ih' := ih (fun j => mk (Nat.succ j)) st st' hlen hle h2
        obtain ⟨ihlen, ihhr, ihpres, ihnew⟩ := ih'
        refine ⟨ihlen, by omega, ihpres, ?_⟩
        intro j hj
        omega
      · rw [if_neg hfull] at h1
        obtain ⟨hlt, hst1⟩ := pushSlot_ok h1
        subst hst1
        have ih' := ih (fun j => mk (Nat.succ j)) _ st'
          (by simpa using hlen) (by simp; omega) h2
        simp only [List.length_set] at ih'
        obtain ⟨ihlen, ihhr, ihpres, ihnew⟩ := ih'
        refine ⟨ihlen, by omega, ?_, ?_⟩
        · intro i hi
          rw [ihpres i (by omega)]
          unfold slotAt
          simp [List.getElem?_set_ne (by omega : st.hr ≠ i)]
        · intro j hj
          cases j with
          | zero =>
              rw [show st.hr + 0 = st.hr from rfl]
              rw [ihpres st.hr (by omega)]
              unfold slotAt
              rw [hlen] at hlt
              simp [List.getElem?_set_self, hlt, hlen, Option.join]
          | succ j =>
              have hj2 : st.hr + 1 + j < st'.hr := by omega
              have := ihnew j hj2
              rw [show st.hr + (j + 1) = st.hr + 1 + j by omega]
              exact this

/-- Characterization of the end-padding run of `setSlot` writes at
indices `c + i` (the cursor itself never moves). -/
theorem setRange_ok :
    ∀ (p c : Nat) (mk : Nat → ForecastTimeseriesValue) (st st' : HState),
    (List.range p).foldlM (fun s i => setSlot s (c + i) (mk i)) st = .ok st' →
    st'.out.length = st.out.length ∧ st'.hr = st.hr ∧
    (1 ≤ p → c + p ≤ st.out.length) ∧
    (∀ i, i < c → slotAt st' i = slotAt st i) ∧
    (∀ j, j < p → slotAt st' (c + j) = some (mk j)) := by
  intro p
  induction p with
  | zero =>
      intro c mk st st' h
      simp only [List.range_zero, List.foldlM_nil] at h
      obtain rfl : st = st' := exceptPure_ok h
      exact ⟨rfl, rfl, by omega, fun i _ => rfl, by omega⟩
  | succ p ih =>
      intro c mk st st' h
      rw [List.range_succ_eq_map, List.foldlM_cons] at h
      obtain ⟨st1, h1, h2⟩ := exceptBind_ok h
      rw [List.foldlM_map] at h2
      rw [show c + 0 = c from rfl] at h1
      obtain ⟨hlt, hst1⟩ := setSlot_ok h1
      subst hst1
      have hfun : (fun (s : HState) (j : Nat) => setSlot s (c + Nat.succ j) (mk (Nat.succ j)))
          = fun (s : HState) (j : Nat) => setSlot s (c + 1 + j) (mk (Nat.succ j)) := by
        funext s j
        rw [show c + Nat.succ j = c + 1 + j by omega]
      rw [hfun] at h2
      have ih' := ih (c + 1) (fun j => mk (Nat.succ j)) _ st' h2
      simp only [List.length_set] at ih'
      obtain ⟨ihlen, ihhr, ihbound, ihpres, ihnew⟩ := ih'
      refine ⟨ihlen, ihhr, ?_, ?_, ?_⟩
      · intro hp
        rcases Nat.eq_zero_or_pos p with hp0 | hp1
        · omega
        · have := ihbound hp1; omega
      · intro i hi
        rw [ihpres i (by omega)]
        unfold slotAt
        simp [List.getElem?_set_ne (by omega : c ≠ i)]
      · intro j hj
        cases j with
        | zero =>
            rw [show c + 0 = c from rfl]
            rw [ihpres c (by omega)]
            unfold slotAt
            simp [List.getElem?_set_self, hlt, Option.join]
        | succ j =>
            have := ihnew j (by omega)
            rw [show c + (j + 1) = c + 1 + j by omega]
            exact this


/-- Exact hourly division under grid alignment. -/
theorem tdiv_exact {d : Int} (h : (60 : Int) ∣ d) : 60 * d.tdiv 60 = d := by
  obtain ⟨k, rfl⟩ := h
  rw [Int.mul_tdiv_cancel_left _ (by norm_num)]

/-- Truncated hourly division is a lower bound for nonnegative spans. -/
theorem tdiv_le {d : Int} (h : 0 ≤ d) : 60 * d.tdiv 60 ≤ d := by
  rw [Int.tdiv_eq_ediv h (by norm_num)]
  have := Int.ediv_mul_le d (b := 60) (by norm_num)
  linarith

theorem gapFill_post {N : Nat} {tMin : GoTime} {st st1 : HState}
    {v : ForecastTimeseriesValue}
    (hInv : HInvP N tMin st)
    (halign : (60 : Int) ∣ (v.time.time - tMin))
    (hlink : 0 < st.hr → ∀ b, lastInst st = some b → b + 60 ≤ v.time.time)
    (h : gapFill N st v = .ok st1) :
    HInvP N tMin st1 ∧ st.hr ≤ st1.hr ∧
    ((st.hr = 0 ∨ st.hr = N) → st1 = st) ∧
    (0 < st.hr → st.hr < N → lastInst st1 = some (v.time.time - 60)) := by
  obtain ⟨hlen, hle, hform⟩ := hInv
  unfold gapFill at h
  split at h
  case isFalse hcond =>
    obtain rfl : st = st1 := exceptPure_ok h
    exact ⟨⟨hlen, hle, hform⟩, le_refl _, fun _ => rfl, fun h1 h2 => absurd ⟨h1, h2⟩ hcond⟩
  case isTrue hcond =>
    obtain ⟨hpos, hltN⟩ := hcond
    obtain ⟨base, hdvd, hslots⟩ := hform hpos
    obtain ⟨lv, hlv, hlvt⟩ := hslots (st.hr - 1) (by omega)
    obtain ⟨lastValue, hread, h2⟩ := exceptBind_ok h
    rw [slotAt_of_readSlot hlv] at hread
    obtain rfl : lv = lastValue := Except.ok.inj hread
    -- the gap is an exact positive number of hours
    have hvb : lv.time.time + 60 ≤ v.time.time := by
      exact hlink hpos lv.time.time (by unfold lastInst; rw [hlv]; rfl)
    have hgap_dvd : (60 : Int) ∣ (v.time.time - lv.time.time) := by
      have h1 : v.time.time - lv.time.time = (v.time.time - tMin) - ((base - tMin) + 60 * (st.hr - 1 : Nat)) := by
        rw [hlvt]; ring
      rw [h1]
      exact dvd_sub halign (dvd_add hdvd ⟨(st.hr - 1 : Nat), rfl⟩)
    set g : Int := hoursTrunc (v.time.time - lv.time.time) with hg
    have hgeq : 60 * g = v.time.time - lv.time.time := tdiv_exact hgap_dvd
    have hgpos : 1 ≤ g := by nlinarith
    have hm : ((g - 1).toNat : Int) = g - 1 := Int.toNat_of_nonneg (by omega)
    have hpr := pushRange_ok (g - 1).toNat
      (fun j => mkSlot (lv.time.time + timeHour * ((j : Int) + 1)) lv.value)
      st st1 (by omega) h2
    obtain ⟨plen, phr, pbound, ppres, pnew⟩ := hpr
    have hnewInv : HInvP N tMin st1 := by
      refine ⟨by omega, by omega, fun _ => ⟨base, hdvd, ?_⟩⟩
      intro i hi
      by_cases hi2 : i < st.hr
      · obtain ⟨w, hw, hwt⟩ := hslots i hi2
        exact ⟨w, by rw [ppres i hi2]; exact hw, hwt⟩
      · have hj : i - st.hr < (g - 1).toNat := by omega
        have := pnew (i - st.hr) hj
        rw [show st.hr + (i - st.hr) = i by omega] at this
        refine ⟨_, this, ?_⟩
        show lv.time.time + timeHour * (((i - st.hr : Nat) : Int) + 1) = base + 60 * (i : Nat)
        have : ((i - st.hr : Nat) : Int) = (i : Int) - (st.hr : Int) := by omega
        rw [this, hlvt]
        unfold timeHour
        have : ((st.hr - 1 : Nat) : Int) = (st.hr : Int) - 1 := by omega
        rw [this]
        ring
    have hmono : st.hr ≤ st1.hr := by rw [phr]; omega
    refine ⟨hnewInv, hmono, fun hc => by exfalso; rcases hc with h0 | hN <;> omega,
      fun _ _ => ?_⟩
    -- the last written slot sits one hour before the new value's instant
    unfold lastInst
    by_cases hm0 : (g - 1).toNat = 0
    · have hg1 : g = 1 := by omega
      rw [phr, hm0]
      rw [show st.hr + 0 - 1 = st.hr - 1 from rfl]
      rw [ppres (st.hr - 1) (Nat.sub_lt hpos one_pos), hlv]
      have : lv.time.time = v.time.time - 60 := by
        have h60 := hgeq; rw [hg1] at h60; linarith
      simp [this]
    · have hj : (g - 1).toNat - 1 < (g - 1).toNat := by omega
      have := pnew ((g - 1).toNat - 1) hj
      rw [phr]
      rw [show st.hr + (g - 1).toNat - 1 = st.hr + ((g - 1).toNat - 1) by omega]
      rw [this]
      show some (lv.time.time + timeHour * ((((g - 1).toNat - 1 : Nat) : Int) + 1)) = _
      have harith : ((((g - 1).toNat - 1 : Nat)) : Int) = g - 2 := by omega
      rw [harith]
      unfold timeHour
      have : lv.time.time + 60 * (g - 2 + 1) = v.time.time - 60 := by
        nlinarith [hgeq]
      rw [this]


theorem spanFill_post {N : Nat} {tMin : GoTime} {st1 st' : HState}
    {v : ForecastTimeseriesValue}
    (hInv : HInvP N tMin st1)
    (halign : (60 : Int) ∣ (v.time.time - tMin))
    (hdur : 0 ≤ v.time.duration)
    (hbound : 0 < st1.hr → ∀ b, lastInst st1 = some b → b + 60 ≤ v.time.time)
    (hexact : 0 < st1.hr → st1.hr < N → lastInst st1 = some (v.time.time - 60))
    (h : spanFill N st1 v = .ok st') :
    HInvP N tMin st' ∧ st1.hr ≤ st'.hr ∧
    (0 < st'.hr → ∀ b, lastInst st' = some b →
      b + 60 ≤ v.time.time + v.time.duration) := by
  obtain ⟨hlen, hle, hform⟩ := hInv
  unfold spanFill at h
  have hsp := spanRange_ok N (hoursTrunc v.time.duration).toNat
    (fun i => mkSlot (v.time.time + timeHour * (i : Int)) v.value) st1 st' hlen hle h
  obtain ⟨slen, shr, spres, snew⟩ := hsp
  have hmono : st1.hr ≤ st'.hr := by omega
  have hk60 : 60 * (((hoursTrunc v.time.duration).toNat : Nat) : Int) ≤ v.time.duration := by
    have h1 : (((hoursTrunc v.time.duration).toNat : Nat) : Int) = hoursTrunc v.time.duration :=
      Int.toNat_of_nonneg (Int.tdiv_nonneg hdur (by norm_num))
    rw [h1]; exact tdiv_le hdur
  -- the instant written at offset j
  have hinst : ∀ j : Nat, st1.hr + j < st'.hr →
      slotAt st' (st1.hr + j) =
        some (mkSlot (v.time.time + timeHour * (j : Int)) v.value) := snew
  constructor
  · -- invariant
    refine ⟨slen, by omega, ?_⟩
    intro hpos'
    by_cases hwrote : st1.hr < st'.hr
    · by_cases h0 : st1.hr = 0
      · -- a fresh run starting at the value's own instant
        refine ⟨v.time.time, halign, ?_⟩
        intro i hi
        have := hinst i (by omega)
        rw [show st1.hr + i = i by omega] at this
        refine ⟨_, this, ?_⟩
        show v.time.time + timeHour * (i : Int) = v.time.time + 60 * (i : Nat)
        unfold timeHour; ring
      · -- continuation of the existing run
        obtain ⟨base, hdvd, hslots⟩ := hform (by omega)
        obtain ⟨w, hw, hwt⟩ := hslots (st1.hr - 1) (by omega)
        have hlast : lastInst st1 = some (v.time.time - 60) :=
          hexact (by omega) (by omega)
        have hwv : w.time.time = v.time.time - 60 := by
          unfold lastInst at hlast
          rw [hw] at hlast
          exact Option.some.inj hlast
        have hvbase : v.time.time = base + 60 * (st1.hr : Int) := by
          have h1 : ((st1.hr - 1 : Nat) : Int) = (st1.hr : Int) - 1 := by omega
          rw [hwt, h1] at hwv
          linarith
        refine ⟨base, hdvd, ?_⟩
        intro i hi
        by_cases hi2 : i < st1.hr
        · obtain ⟨w2, hw2, hw2t⟩ := hslots i hi2
          exact ⟨w2, by rw [spres i hi2]; exact hw2, hw2t⟩
        · have := hinst (i - st1.hr) (by omega)
          rw [show st1.hr + (i - st1.hr) = i by omega] at this
          refine ⟨_, this, ?_⟩
          show v.time.time + timeHour * ((i - st1.hr : Nat) : Int) = base + 60 * (i : Nat)
          have h2 : ((i - st1.hr : Nat) : Int) = (i : Int) - (st1.hr : Int) := by omega
          rw [h2, hvbase]
          unfold timeHour; ring
    · -- nothing written: the old prefix is intact
      have hsame : st'.hr = st1.hr := by omega
      obtain ⟨base, hdvd, hslots⟩ := hform (by omega)
      refine ⟨base, hdvd, ?_⟩
      intro i hi
      obtain ⟨w2, hw2, hw2t⟩ := hslots i (by omega)
      exact ⟨w2, by rw [spres i (by omega)]; exact hw2, hw2t⟩
  refine ⟨hmono, ?_⟩
  intro hpos' b hb
  by_cases hwrote : st1.hr < st'.hr
  · -- the last slot written carries v's value at offset s-1
    have hs : st'.hr - 1 = st1.hr + (st'.hr - 1 - st1.hr) := by omega
    have := hinst (st'.hr - 1 - st1.hr) (by omega)
    unfold lastInst at hb
    rw [hs, this] at hb
    have hbv : b = v.time.time + timeHour * ((st'.hr - 1 - st1.hr : Nat) : Int) := by
      simpa using hb.symm
    have hsk : ((st'.hr - 1 - st1.hr : Nat) : Int) + 1 ≤ (((hoursTrunc v.time.duration).toNat : Nat) : Int) := by
      have : st'.hr ≤ st1.hr + (hoursTrunc v.time.duration).toNat := by omega
      omega
    rw [hbv]
    unfold timeHour
    nlinarith [hk60]
  · -- no writes: the old bound carries over, padded by the span
    have hsame : st'.hr = st1.hr := by omega
    have hpos1 : 0 < st1.hr := by omega
    have hb1 : lastInst st1 = some b := by
      unfold lastInst at hb
      unfold lastInst
      rw [hsame] at hb
      rw [← spres (st1.hr - 1) (by omega)]
      exact hb
    have := hbound hpos1 b hb1
    linarith


theorem ValidSeries.tail {v : ForecastTimeseriesValue}
    {rest : List ForecastTimeseriesValue} (h : ValidSeries (v :: rest)) :
    ValidSeries rest := by
  cases rest with
  | nil => trivial
  | cons w r => exact h.2.2

theorem ValidSeries.dur_nonneg {v : ForecastTimeseriesValue}
    {rest : List ForecastTimeseriesValue} (h : ValidSeries (v :: rest)) :
    0 ≤ v.time.duration := by
  cases rest with
  | nil => exact h
  | cons w r => exact h.1

theorem ValidSeries.head_gap {v w : ForecastTimeseriesValue}
    {rest : List ForecastTimeseriesValue} (h : ValidSeries (v :: w :: rest)) :
    v.time.endTime ≤ w.time.time := h.2.1

/-- One iteration of the resampler's values walk: interior gap fill, then
span expansion. -/
theorem valueStep_post {N : Nat} {tMin : GoTime} {st st' : HState}
    {v : ForecastTimeseriesValue}
    (hInv : HInvP N tMin st)
    (halign : (60 : Int) ∣ (v.time.time - tMin))
    (hdur : 0 ≤ v.time.duration)
    (hlink : 0 < st.hr → ∀ b, lastInst st = some b → b + 60 ≤ v.time.time)
    (h : (gapFill N st v >>= fun s => spanFill N s v) = .ok st') :
    HInvP N tMin st' ∧
    (0 < st'.hr → ∀ b, lastInst st' = some b →
      b + 60 ≤ v.time.time + v.time.duration) := by
  obtain ⟨st1, h1, h2⟩ := exceptBind_ok h
  obtain ⟨hInv1, hmono1, hid, hlast⟩ := gapFill_post hInv halign hlink h1
  have hle := hInv.2.1
  have hbound : 0 < st1.hr → ∀ b, lastInst st1 = some b → b + 60 ≤ v.time.time := by
    intro hpos1 b hb
    rcases Nat.lt_or_ge st.hr N with hltN | hgeN
    · rcases Nat.eq_zero_or_pos st.hr with h0 | hpos
      · have := hid (Or.inl h0)
        subst this
        exact absurd hpos1 (by omega)
      · have := hlast hpos hltN
        rw [this] at hb
        have hbv : b = v.time.time - 60 := (Option.some.inj hb).symm
        linarith
    · have hNN : st.hr = N := by omega
      have := hid (Or.inr hNN)
      subst this
      exact hlink (by omega) b hb
  have hexact : 0 < st1.hr → st1.hr < N → lastInst st1 = some (v.time.time - 60) := by
    intro hpos1 hlt1
    rcases Nat.lt_or_ge st.hr N with hltN | hgeN
    · rcases Nat.eq_zero_or_pos st.hr with h0 | hpos
      · have := hid (Or.inl h0)
        subst this
        exact absurd hpos1 (by omega)
      · exact hlast hpos hltN
    · have hNN : st.hr = N := by omega
      have := hid (Or.inr hNN)
      subst this
      exact absurd hlt1 (by omega)
  obtain ⟨hInv', hmono2, hbound'⟩ := spanFill_post hInv1 halign hdur hbound hexact h2
  exact ⟨hInv', hbound'⟩

/-- The full values walk preserves the resampler invariant. -/
theorem valuesFold_post {N : Nat} {tMin : GoTime} :
    ∀ (vs : List ForecastTimeseriesValue) (st st' : HState),
    HInvP N tMin st →
    ValidSeries vs →
    (∀ v ∈ vs, (60 : Int) ∣ (v.time.time - tMin)) →
    (∀ v, vs.head? = some v → 0 < st.hr → ∀ b, lastInst st = some b →
      b + 60 ≤ v.time.time) →
    vs.foldlM (fun s t => gapFill N s t >>= fun s => spanFill N s t) st = .ok st' →
    HInvP N tMin st' := by
  intro vs
  induction vs with
  | nil =>
      intro st st' hInv _ _ _ h
      simp only [List.foldlM_nil] at h
      obtain rfl : st = st' := exceptPure_ok h
      exact hInv
  | cons v rest ih =>
      intro st st' hInv hvalid haligns hlink h
      rw [List.foldlM_cons] at h
      obtain ⟨st1, h1, h2⟩ := exceptBind_ok h
      have halign := haligns v (List.mem_cons_self v rest)
      obtain ⟨hInv1, hbound1⟩ := valueStep_post hInv halign
        (ValidSeries.dur_nonneg hvalid)
        (fun hpos b hb => hlink v rfl hpos b hb) h1
      refine ih st1 st' hInv1 (ValidSeries.tail hvalid)
        (fun w hw => haligns w (List.mem_cons_of_mem v hw)) ?_ h2
      intro w hw hpos1 b hb
      cases rest with
      | nil => exact absurd hw (by simp)
      | cons w2 r2 =>
          have hw2 : w2 = w := by
            simpa using hw
          subst hw2
          have hvw := ValidSeries.head_gap hvalid
          have := hbound1 hpos1 b hb
          unfold ForecastTime.endTime at hvw
          linarith


/-- Guard statements inside the do blocks. -/
theorem exceptGuard_ok {ε β : Type} {c : Prop} [Decidable c] {e : ε}
    {k : PUnit → Except ε β} {b : β}
    (h : ((if c then throw e else pure PUnit.unit) >>= k) = .ok b) :
    ¬c ∧ k PUnit.unit = .ok b := by
  by_cases hc : c
  · rw [if_pos hc] at h
    exact absurd h (fun hh => Except.noConfusion hh)
  · rw [if_neg hc] at h
    exact ⟨hc, h⟩

theorem mapM_orPanic_ok :
    ∀ (l : List (Option ForecastTimeseriesValue)) (vs : List ForecastTimeseriesValue),
    l.mapM orPanic = .ok vs →
    vs.length = l.length ∧ ∀ i : Nat, vs[i]? = (l[i]?).join := by
  intro l
  induction l with
  | nil =>
      intro vs h
      rw [List.mapM_nil] at h
      obtain rfl : ([] : List ForecastTimeseriesValue) = vs := exceptPure_ok h
      exact ⟨rfl, fun i => by simp [Option.join]⟩
  | cons o rest ih =>
      intro vs h
      rw [List.mapM_cons] at h
      obtain ⟨v, hv, h2⟩ := exceptBind_ok h
      obtain ⟨tl, htl, h3⟩ := exceptBind_ok h2
      obtain rfl : v :: tl = vs := exceptPure_ok h3
      obtain ⟨ihlen, ihget⟩ := ih tl htl
      have hov : o = some v := by
        cases o with
        | none => exact absurd hv (by simp [orPanic])
        | some w =>
            have : w = v := Except.ok.inj hv
            rw [this]
      subst hov
      refine ⟨by simp [ihlen], ?_⟩
      intro i
      cases i with
      | zero => simp [Option.join]
      | succ i => simpa using ihget i

end Noaa

namespace Noaa

theorem orPanic_okk {α : Type} {o : Option α} {a : α} (h : orPanic o = .ok a) :
    o = some a := by
  cases o with
  | none => exact absurd h (by simp [orPanic])
  | some b =>
      have : b = a := Except.ok.inj h
      rw [this]

theorem timeseriesMap_ok {f : ForecastGridResponse}
    {pr : ForecastGridResponse × List (String × ForecastTimeseries)}
    (h : timeseriesMap f = .ok pr) : pr.1 = stampGrid f := by
  unfold timeseriesMap at h
  obtain ⟨t1, h1, h⟩ := exceptBind_ok h
  obtain ⟨t2, h2, h⟩ := exceptBind_ok h
  obtain ⟨t3, h3, h⟩ := exceptBind_ok h
  obtain ⟨t4, h4, h⟩ := exceptBind_ok h
  obtain ⟨t5, h5, h⟩ := exceptBind_ok h
  obtain ⟨t6, h6, h⟩ := exceptBind_ok h
  obtain ⟨t7, h7, h⟩ := exceptBind_ok h
  have hpr := exceptPure_ok h
  rw [← hpr]
  unfold stampGrid
  rw [orPanic_okk h1, orPanic_okk h2, orPanic_okk h3, orPanic_okk h4,
    orPanic_okk h5, orPanic_okk h6, orPanic_okk h7]
  rfl

theorem avgLoop_post_eq (n : Rat) (u : String) :
    ∀ (fs : List ForecastGridResponse) (i : Nat) (a b : GoTime) (me : Rat)
      (arrays : SeriesArrays) (post : List ForecastGridResponse)
      (out : GoTime × GoTime × Rat × SeriesArrays × List ForecastGridResponse),
    avgLoop n u fs i a b me arrays post = .ok out →
    out.2.2.2.2 = post.reverse ++ fs.map stampGrid := by
  intro fs
  induction fs with
  | nil =>
      intro i a b me arrays post out h
      unfold avgLoop at h
      have := exceptPure_ok h
      rw [← this]
      simp
  | cons f rest ih =>
      intro i a b me arrays post out h
      unfold avgLoop at h
      split at h
      · exact Except.noConfusion h
      · obtain ⟨u0, hu0, h⟩ := exceptBind_ok h
        obtain ⟨pr, hpr, h⟩ := exceptBind_ok h
        obtain ⟨vt, hvt, h⟩ := exceptBind_ok h
        have := ih (i + 1) _ _ _ _ (pr.1 :: post) out h
        rw [this, timeseriesMap_ok (by rw [hpr] : timeseriesMap f = .ok pr)]
        simp


theorem eraseSeriesInfo_stampGrid (f : ForecastGridResponse) :
    eraseSeriesInfo (stampGrid f) = eraseSeriesInfo f := by
  unfold eraseSeriesInfo stampGrid
  cases f
  simp only [Option.map_map]
  rfl

/-! ## Claims about the DurationParser -/

/-- C6 counterexample: the claim says a present minute component that does
not evenly divide into whole hours is rounded up to the next full hour.
For the input "PT61M" (61 minutes) the next full hour is 2 hours
(120 minutes), but `parseDuration` contributes a single hour for any
minute component of at least one minute and returns 1 hour (60). -/
theorem C6_counterexample :
    parseDuration "PT61M" = .ok 60 ∧
    (60 : GoDuration) ≠ 120 := by
  constructor
  · rfl
  · decide

/-- C6 (amended): `parseDuration` returns exactly 3 hours for "PT3H",
26 hours for "P1DT2H", 3 hours for "PT2H59M40S" and 5*24+11 hours for
"P5DT10H14M34S"; and a present minute component between 1 and 59 minutes
(the range a well-formed designator carries) is rounded up to exactly one
extra hour.  Minute components of 60 or more still contribute only one
hour, so the rounding description holds only below one hour
(see the counterexample). -/
theorem C6_minute_rounding :
    parseDuration "PT3H" = .ok (3 * 60) ∧
    parseDuration "P1DT2H" = .ok (26 * 60) ∧
    parseDuration "PT2H59M40S" = .ok (3 * 60) ∧
    parseDuration "P5DT10H14M34S" = .ok ((5 * 24 + 11) * 60) ∧
    ∀ m : Nat, m < 60 → 1 ≤ m →
      parseDuration ("PT" ++ toString m ++ "M") = .ok 60 := by
  refine ⟨rfl, rfl, rfl, rfl, ?_⟩
  decide

/-- Witness for C6: the amended rounding statement at the concrete minute
component 30. -/
theorem C6_minute_rounding_witness :
    parseDuration ("PT" ++ toString 30 ++ "M") = .ok 60 :=
  C6_minute_rounding.2.2.2.2 30 (by decide) (by decide)

/-- C7: parsing "2020-08-19T04:00:00+00:00/PT5H" yields the instant
2020-08-19T04:00:00Z with a 5 hour duration, and parsing
"2020-08-19T09:43:26+00:00/PT6H16M34S" yields 2020-08-19T09:00:00Z (the
instant's sub-hour components truncated, not rounded) with a 7 hour
duration. -/
theorem C7_composite_parse :
    ForecastTimeUnmarshalJSON "\"2020-08-19T04:00:00+00:00/PT5H\"" =
      .ok (⟨2020, 8, 19, 4, 0, 0⟩, 5 * 60) ∧
    ForecastTimeUnmarshalJSON "\"2020-08-19T09:43:26+00:00/PT6H16M34S\"" =
      .ok (⟨2020, 8, 19, 9, 0, 0⟩, 7 * 60) := by
  exact ⟨rfl, rfl⟩

/-- C8 counterexample: the claim says every nonnegative day count n
contributes n*24 hours, but the day group of the duration regex matches a
single digit only, so "P10D" (claimed 240 hours = 14400 minutes) parses
with an empty leftmost match and returns a zero duration. -/
theorem C8_counterexample :
    parseDuration "P10D" = .ok 0 ∧
    (0 : GoDuration) ≠ 14400 := by
  constructor
  · rfl
  · decide

/-- C8 (amended): a single-digit day count n (0 ≤ n ≤ 9) contributes
exactly n*24 hours of wall-clock time, alone or combined with hour and
minute components, and each absent component contributes zero ("P" alone
parses to a zero duration); a day count of ten or more days defeats the
single-digit day pattern and the whole designator contributes nothing
(see the counterexample). -/
theorem C8_day_component :
    (∀ n : Nat, n < 10 →
      parseDuration ("P" ++ toString n ++ "D") = .ok ((n : Int) * 24 * 60) ∧
      parseDuration ("P" ++ toString n ++ "DT3H2M") =
        .ok ((n : Int) * 24 * 60 + 3 * 60 + 60)) ∧
    parseDuration "P" = .ok 0 ∧
    parseDuration "PT7H" = .ok (7 * 60) := by
  refine ⟨?_, rfl, rfl⟩
  decide

/-- Witness for C8: the amended day-count statement at n = 5. -/
theorem C8_day_component_witness :
    parseDuration ("P" ++ toString 5 ++ "D") = .ok ((5 : Int) * 24 * 60) :=
  (C8_day_component.1 5 (by decide)).1

/-! ## Claims about the Resampler -/

/-- C2 counterexample: on the valid series with samples at minutes
0, 90, 150 and the window [0, 150], `hourly` succeeds and returns slots at
instants 0, 90, 150 — the advertised count (floor(2.5)+1 = 3), first and
last instants hold, but the consecutive instants 0 and 90 differ by 90
minutes, not one hour, refuting the claimed boundary invariant. -/
theorem C2_counterexample :
    ValidSeries c2Series.values ∧ c2Series.values ≠ [] ∧ (0 : GoTime) ≤ 150 ∧
    (hourly c2Series 0 150).map (fun r => r.values.map (fun v => v.time.time)) =
      .ok [0, 90, 150] ∧
    (90 : GoTime) - 0 ≠ 60 := by
  refine ⟨by decide, by decide, by decide, ?_, by decide⟩
  rfl

/-- C10: on the valid input series with samples at minutes 0 and 600 and
the window [0, 60], the interior gap-filling loop keeps writing past the
two-slot output buffer: Go panics with an index-out-of-range error
instead of performing only in-bounds accesses and returning a Timeseries
or an error. -/
theorem C10_gap_overrun :
    ValidSeries c10Series.values ∧ c10Series.values ≠ [] ∧ (0 : GoTime) ≤ 60 ∧
    hourly c10Series 0 60 = .error .panicOOB := by
  refine ⟨by decide, by decide, by decide, ?_⟩
  rfl

/-- C2 (amended): for every valid input series whose sample instants lie,
together with the window bounds, on one common hourly grid, whenever the
resampler returns a result it has exactly floor(hours(end-start)) + 1
values, the first value's instant equals the window start, the last
equals the window end, and consecutive output instants differ by exactly
one hour.  Off-grid instants break the one-hour cadence (see the
counterexample), which is why the grid hypothesis is required. -/
theorem C2_hourly_boundary (ts : ForecastTimeseries) (tMin tMax : GoTime)
    (res : ForecastTimeseries)
    (hvalid : ValidSeries ts.values) (hne : ts.values ≠ [])
    (hwin : tMin ≤ tMax)
    (halign : HourAligned tMin tMax ts.values)
    (hok : hourly ts tMin tMax = .ok res) :
    res.values.length = ((tMax - tMin).tdiv 60).toNat + 1 ∧
    (∃ v, res.values.head? = some v ∧ v.time.time = tMin) ∧
    (∃ v, res.values.getLast? = some v ∧ v.time.time = tMax) ∧
    (∀ (i : Nat) (a b : ForecastTimeseriesValue),
      res.values[i]? = some a → res.values[i + 1]? = some b →
      b.time.time = a.time.time + 60) := by
  unfold hourly at hok
  obtain ⟨v0, rest, hvals⟩ : ∃ v0 rest, ts.values = v0 :: rest := by
    cases hv : ts.values with
    | nil => exact absurd hv hne
    | cons a l => exact ⟨a, l, rfl⟩
  rw [hvals] at hok
  have htd : 0 ≤ hoursTrunc (tMax - tMin) :=
    Int.tdiv_nonneg (by linarith) (by norm_num)
  have hNZ : ¬ (hoursTrunc (tMax - tMin) + 1 < 0) := by intro hc; linarith
  rw [if_neg hNZ] at hok
  obtain ⟨u0, hu0, hok⟩ := exceptBind_ok hok
  obtain ⟨fv, hfv, hok⟩ := exceptBind_ok hok
  obtain rfl : v0 = fv := Except.ok.inj hfv
  obtain ⟨st1, hst1, hok⟩ := exceptBind_ok hok
  obtain ⟨st2, hst2, hok⟩ := exceptBind_ok hok
  by_cases h20 : st2.hr = 0
  · rw [if_pos h20] at hok
    exact Except.noConfusion hok
  rw [if_neg h20] at hok
  obtain ⟨u1, hu1, hok⟩ := exceptBind_ok hok
  obtain ⟨lastValue, hlastV, hok⟩ := exceptBind_ok hok
  obtain ⟨st3, hst3, hok⟩ := exceptBind_ok hok
  obtain ⟨firstH, hfirstH, hok⟩ := exceptBind_ok hok
  by_cases hN0 : (hoursTrunc (tMax - tMin) + 1).toNat = 0
  · rw [if_pos hN0] at hok
    exact Except.noConfusion hok
  rw [if_neg hN0] at hok
  obtain ⟨u2, hu2, hok⟩ := exceptBind_ok hok
  obtain ⟨lastH, hlastH, hok⟩ := exceptBind_ok hok
  by_cases hfm : firstH.time.time ≠ tMin
  · rw [if_pos hfm] at hok
    exact Except.noConfusion hok
  rw [if_neg hfm] at hok
  obtain ⟨u3, hu3, hok⟩ := exceptBind_ok hok
  by_cases hlm : lastH.time.time ≠ tMax
  · rw [if_pos hlm] at hok
    exact Except.noConfusion hok
  rw [if_neg hlm] at hok
  obtain ⟨u4, hu4, hok⟩ := exceptBind_ok hok
  obtain ⟨values, hvaluesM, hok⟩ := exceptBind_ok hok
  have hres := exceptPure_ok hok
  -- notation for the slot count
  set N : Nat := (hoursTrunc (tMax - tMin) + 1).toNat with hN
  -- the leading pad establishes the invariant from the base tMin
  have hst0le : (0 : Nat) ≤ (List.replicate N (none : Option ForecastTimeseriesValue)).length := by
    omega
  have hpush := pushRange_ok (hoursTrunc (v0.time.time - tMin)).toNat
    (fun i => mkSlot (tMin + timeHour * (i : Int)) v0.value)
    { out := List.replicate N none, hr := 0 } st1 (by simp) hst1
  obtain ⟨p1len, p1hr, p1le, p1pres, p1new⟩ := hpush
  simp only [List.length_replicate] at p1len p1le
  set p : Nat := (hoursTrunc (v0.time.time - tMin)).toNat with hp
  have p1hrC : st1.hr = p := by rw [p1hr]; exact Nat.zero_add _
  have p1newC : ∀ j, j < p → slotAt st1 j =
      some (mkSlot (tMin + timeHour * (j : Int)) v0.value) := by
    intro j hj
    have hthis := p1new j hj
    have h0 : ({ out := List.replicate N (none : Option ForecastTimeseriesValue), hr := 0 } : HState).hr + j = j := Nat.zero_add j
    rw [h0] at hthis
    exact hthis
  have halign0 : (60 : Int) ∣ (v0.time.time - tMin) := by
    exact halign.2 v0 (by rw [hvals]; exact List.mem_cons_self v0 rest)
  have hInv1 : HInvP N tMin st1 := by
    refine ⟨p1len, by omega, ?_⟩
    intro hpos
    refine ⟨tMin, by simp, ?_⟩
    intro i hi
    refine ⟨_, p1newC i (by omega), ?_⟩
    show tMin + timeHour * (i : Int) = tMin + 60 * (i : Nat)
    unfold timeHour
    norm_num
  -- the pad ends exactly one hour before the first sample
  have hlink1 : ∀ v, (v0 :: rest).head? = some v → 0 < st1.hr →
      ∀ b, lastInst st1 = some b → b + 60 ≤ v.time.time := by
    intro v hv hpos b hb
    obtain rfl : v0 = v := by simpa using hv
    have hp1 : 0 < p := by omega
    have hlast1 : lastInst st1 = some (tMin + timeHour * ((p - 1 : Nat) : Int)) := by
      unfold lastInst
      rw [p1hrC, p1newC (p - 1) (by omega)]
      rfl
    rw [hlast1] at hb
    obtain rfl : b = tMin + timeHour * ((p - 1 : Nat) : Int) :=
      (Option.some.inj hb).symm
    have hexact60 : 60 * hoursTrunc (v0.time.time - tMin) = v0.time.time - tMin :=
      tdiv_exact halign0
    have htn : ((p : Nat) : Int) = hoursTrunc (v0.time.time - tMin) := by
      rw [hp]
      refine Int.toNat_of_nonneg ?_
      by_contra hneg
      push_neg at hneg
      have : p = 0 := by
        rw [hp]
        have := Int.toNat_of_nonpos (le_of_lt hneg)
        exact this
      omega
    have hcast : ((p - 1 : Nat) : Int) = (p : Int) - 1 := by
      have : 1 ≤ p := hp1
      omega
    rw [hcast, htn]
    unfold timeHour
    linarith
  -- the values walk preserves the invariant
  have hvalidR : ValidSeries (v0 :: rest) := by rw [hvals] at hvalid; exact hvalid
  have halignR : ∀ v ∈ (v0 :: rest), (60 : Int) ∣ (v.time.time - tMin) := by
    intro v hv
    exact halign.2 v (by rw [hvals]; exact hv)
  have hInv2 : HInvP N tMin st2 :=
    valuesFold_post (v0 :: rest) st1 st2 hInv1 hvalidR halignR hlink1 hst2
  obtain ⟨h2len, h2le, h2form⟩ := hInv2
  obtain ⟨base, hbdvd, hbslots⟩ := h2form (by omega)
  -- the slot the end padding copies from
  have hlastVs : slotAt st2 (st2.hr - 1) = some lastValue := readSlot_ok hlastV
  obtain ⟨w2, hw2, hw2t⟩ := hbslots (st2.hr - 1) (by omega)
  have hlvt : lastValue.time.time = base + 60 * ((st2.hr - 1 : Nat) : Int) := by
    rw [hw2] at hlastVs
    obtain rfl : w2 = lastValue := Option.some.inj hlastVs
    exact hw2t
  -- the end padding fills the remaining slots on the same hourly ladder
  have hpe : ((N : Int) - (st2.hr : Int)).toNat = N - st2.hr := Int.toNat_sub N st2.hr
  rw [hpe] at hst3
  have hset := setRange_ok (N - st2.hr) st2.hr
    (fun i => mkSlot (lastValue.time.time + timeHour * ((i : Int) + 1)) lastValue.value)
    st2 st3 hst3
  obtain ⟨s3len, s3hr, s3bound, s3pres, s3new⟩ := hset
  -- full coverage: every slot carries the ladder instant
  have hcover : ∀ i, i < N → ∃ w, slotAt st3 i = some w ∧
      w.time.time = base + 60 * (i : Nat) := by
    intro i hi
    by_cases hi2 : i < st2.hr
    · obtain ⟨w, hw, hwt⟩ := hbslots i hi2
      exact ⟨w, by rw [s3pres i hi2]; exact hw, hwt⟩
    · have hj : i - st2.hr < N - st2.hr := by omega
      have := s3new (i - st2.hr) hj
      rw [show st2.hr + (i - st2.hr) = i by omega] at this
      refine ⟨_, this, ?_⟩
      show lastValue.time.time + timeHour * (((i - st2.hr : Nat) : Int) + 1)
          = base + 60 * (i : Nat)
      have hc1 : ((i - st2.hr : Nat) : Int) = (i : Int) - (st2.hr : Int) := by omega
      have hc2 : ((st2.hr - 1 : Nat) : Int) = (st2.hr : Int) - 1 := by omega
      rw [hc1, hlvt, hc2]
      unfold timeHour
      ring
  -- boundary checks pin the ladder base and the slot count
  have hNpos : 0 < N := Nat.pos_of_ne_zero hN0
  have hfirstHs : slotAt st3 0 = some firstH := readSlot_ok hfirstH
  obtain ⟨wf, hwf, hwft⟩ := hcover 0 hNpos
  have hbase : base = tMin := by
    rw [hwf] at hfirstHs
    obtain rfl : wf = firstH := Option.some.inj hfirstHs
    push_neg at hfm
    rw [hwft] at hfm
    simpa using hfm
  have hlastHs : slotAt st3 (N - 1) = some lastH := readSlot_ok hlastH
  obtain ⟨wl, hwl, hwlt⟩ := hcover (N - 1) (Nat.sub_lt hNpos one_pos)
  have hlastT : base + 60 * ((N - 1 : Nat) : Int) = tMax := by
    rw [hwl] at hlastHs
    obtain rfl : wl = lastH := Option.some.inj hlastHs
    push_neg at hlm
    rw [hwlt] at hlm
    exact hlm
  -- the returned values follow the slots
  obtain ⟨hvlen, hvget⟩ := mapM_orPanic_ok st3.out values hvaluesM
  have hvlenN : values.length = N := by rw [hvlen, s3len, h2len]
  have hresv : res.values = values := by rw [← hres]
  have hgetv : ∀ i, i < N → ∃ w, values[i]? = some w ∧
      w.time.time = tMin + 60 * (i : Nat) := by
    intro i hi
    obtain ⟨w, hw, hwt⟩ := hcover i hi
    refine ⟨w, ?_, by rw [hwt, hbase]⟩
    rw [hvget i]
    exact hw
  refine ⟨?_, ?_, ?_, ?_⟩
  · rw [hresv, hvlenN, hN]
    rw [show (tMax - tMin).tdiv 60 = hoursTrunc (tMax - tMin) from rfl]
    obtain ⟨q, hq0, hqe⟩ : ∃ q : Int, 0 ≤ q ∧ hoursTrunc (tMax - tMin) = q :=
      ⟨_, htd, rfl⟩
    rw [hqe]
    omega
  · obtain ⟨w, hw, hwt⟩ := hgetv 0 hNpos
    refine ⟨w, ?_, by rw [hwt]; norm_num⟩
    rw [hresv, List.head?_eq_getElem?]
    exact hw
  · obtain ⟨w, hw, hwt⟩ := hgetv (N - 1) (Nat.sub_lt hNpos one_pos)
    refine ⟨w, ?_, ?_⟩
    · rw [hresv, List.getLast?_eq_getElem?, hvlenN]
      exact hw
    · rw [hwt, ← hbase]
      rw [← hlastT]
  · intro i a b hga hgb
    rw [hresv] at hga hgb
    have hiN : i + 1 < N := by
      by_contra hc
      push_neg at hc
      have : values[i + 1]? = none := by
        refine List.getElem?_eq_none ?_
        rw [hvlenN]
        exact hc
      rw [this] at hgb
      exact Option.noConfusion hgb
    obtain ⟨wa, hwa, hwat⟩ := hgetv i (by omega)
    obtain ⟨wb, hwb, hwbt⟩ := hgetv (i + 1) hiN
    rw [hwa] at hga
    rw [hwb] at hgb
    obtain rfl : wa = a := Option.some.inj hga
    obtain rfl : wb = b := Option.some.inj hgb
    rw [hwat, hwbt]
    push_cast
    ring

/-- Witness for C2: the amended boundary statement applied to a dense
hourly series over the window [0, 120] (on which the resampler acts as
the identity). -/
theorem C2_hourly_boundary_witness :
    c2DenseSeries.values.length = (((120 : GoTime) - 0).tdiv 60).toNat + 1 ∧
    (∃ v, c2DenseSeries.values.head? = some v ∧ v.time.time = 0) ∧
    (∃ v, c2DenseSeries.values.getLast? = some v ∧ v.time.time = 120) ∧
    (∀ (i : Nat) (a b : ForecastTimeseriesValue),
      c2DenseSeries.values[i]? = some a → c2DenseSeries.values[i + 1]? = some b →
      b.time.time = a.time.time + 60) :=
  C2_hourly_boundary c2DenseSeries 0 120 c2DenseSeries (by decide) (by decide)
    (by decide) (by decide) (by rfl)


/-! ## Claims about the Averager: concrete runs -/

/-- C3: on two identical well-formed forecasts carrying all seven series,
averaging succeeds and the result keeps the first input's updated stamp,
the mean elevation and six averaged series — but its WindSpeed field is
nil although every input carries a WindSpeed series, because
`newForecastGridResponse` never assigns it.  This refutes the per-series
clause of the claim on the code as written. -/
theorem C3_windSpeed_dropped :
    (AverageForecast [gridC3, gridC3] false).map (fun pr => pr.2.windSpeed) = .ok none ∧
    gridC3.windSpeed.isSome = true ∧
    (AverageForecast [gridC3, gridC3] false).map
      (fun pr => (pr.2.updated, pr.2.elevation.units, pr.2.temperature.isSome,
        pr.2.skyCover.isSome, pr.2.precipitationProbability.isSome,
        pr.2.precipitationQuantity.isSome, pr.2.snowFallAmount.isSome,
        pr.2.snowLevel.isSome)) =
      .ok ("upd3", "m", true, true, true, true, true, true) ∧
    (AverageForecast [gridC3, gridC3] false).map (fun pr => pr.2.elevation.value) =
      .ok ((gridC3.elevation.value + gridC3.elevation.value) / 2) := by
  refine ⟨rfl, rfl, rfl, ?_⟩
  rw [show (gridC3.elevation.value + gridC3.elevation.value) / 2
      = 0 + gridC3.elevation.value / 2 + gridC3.elevation.value / 2 by ring]
  rfl

/-- C4 counterexample: averaging stamps Name and ID onto the input's own
series through `fillInfo`, so the inputs are not left unchanged: the
input Temperature series named "zz" comes back renamed "Temperature"
with the forecast's ID. -/
theorem C4_counterexample :
    (AverageForecast [gridC4] false).map (fun pr => pr.1) ≠ .ok [gridC4] ∧
    (AverageForecast [gridC4] false).map
      (fun pr => pr.1.map (fun f => f.temperature.map (fun t => (t.name, t.id)))) =
      .ok [some ("Temperature", "g4")] ∧
    gridC4.temperature.map (fun t => (t.name, t.id)) = some ("zz", "") := by
  refine ⟨by decide, rfl, rfl⟩

/-- C1 counterexample: gridC1's SkyCover series has observed Tmax at
minute 120, yet averaging resamples every series onto the window ending
at minute 60 that the advertised validity (and the Temperature seed)
dictates; the observed series bound plays no role, refuting the
observed-bounds-union claim. -/
theorem C1_counterexample :
    (gridC1.skyCover.map ForecastTimeseries.Tmax) = some (some 120) ∧
    (AverageForecast [gridC1] false).map
      (fun pr => pr.2.temperature.map (fun t => t.values.map (fun v => v.time.time))) =
      .ok (some [0, 60]) ∧
    (AverageForecast [gridC1] false).map
      (fun pr => pr.2.skyCover.map (fun t => t.values.map (fun v => v.time.time))) =
      .ok (some [0, 60]) ∧
    (60 : GoTime) ≠ 120 := by
  refine ⟨rfl, rfl, rfl, by decide⟩

/-- C5 counterexample: the averaged result carries the first input's
updated stamp, so forecasts differing only in that stamp average to
different results in the two orders. -/
theorem C5_counterexample :
    (AverageForecast [gridA5, gridB5] false).map (fun pr => pr.2.updated) = .ok "ua" ∧
    (AverageForecast [gridB5, gridA5] false).map (fun pr => pr.2.updated) = .ok "ub" ∧
    "ua" ≠ "ub" ∧
    (AverageForecast [gridA5, gridB5] false).map (fun pr => pr.2) ≠
      (AverageForecast [gridB5, gridA5] false).map (fun pr => pr.2) := by
  refine ⟨rfl, rfl, by decide, by decide⟩

/-- C4 (amended): averaging never errors out of mutation — the post-call
state of the inputs is exactly the inputs with each series' Name and ID
stamped by `fillInfo`; every other field of every input is unchanged. -/
theorem C4_mutation_only_stamps (fs : List ForecastGridResponse) (d : Bool)
    (h : (AverageForecast fs d).isOk = true) :
    (AverageForecast fs d).map (fun pr => pr.1) = .ok (fs.map stampGrid) ∧
    (fs.map stampGrid).map eraseSeriesInfo = fs.map eraseSeriesInfo := by
  constructor
  · obtain ⟨pr, hpr⟩ : ∃ pr, AverageForecast fs d = .ok pr := by
      cases hh : AverageForecast fs d with
      | ok pr => exact ⟨pr, rfl⟩
      | error e => rw [hh] at h; exact absurd h (by simp [Except.isOk, Except.toBool])
    rw [hpr]
    show Except.ok pr.1 = Except.ok (fs.map stampGrid)
    have hpost : pr.1 = fs.map stampGrid := by
      unfold AverageForecast at hpr
      match fs with
      | [] => exact Except.noConfusion hpr
      | f0 :: rest =>
        obtain ⟨t0, ht0, hpr⟩ := exceptBind_ok hpr
        cases hv : t0.values with
        | nil => rw [hv] at hpr; exact Except.noConfusion hpr
        | cons v0 vrest =>
        rw [hv] at hpr
        obtain ⟨seed, hseed, hpr⟩ := exceptBind_ok hpr
        obtain ⟨out, hout, hpr⟩ := exceptBind_ok hpr
        obtain ⟨m1, hm1, hpr⟩ := exceptBind_ok hpr
        obtain ⟨m2, hm2, hpr⟩ := exceptBind_ok hpr
        obtain ⟨m3, hm3, hpr⟩ := exceptBind_ok hpr
        obtain ⟨m4, hm4, hpr⟩ := exceptBind_ok hpr
        obtain ⟨m5, hm5, hpr⟩ := exceptBind_ok hpr
        obtain ⟨m6, hm6, hpr⟩ := exceptBind_ok hpr
        obtain ⟨m7, hm7, hpr⟩ := exceptBind_ok hpr
        obtain ⟨result, hresult, hpr⟩ := exceptBind_ok hpr
        have hprv := exceptPure_ok hpr
        have hpost5 := avgLoop_post_eq ((f0 :: rest).length : Rat)
          f0.elevation.units (f0 :: rest) 0 seed seed 0 {} [] out hout
        rw [← hprv]
        simpa using hpost5
    rw [hpost]
  · rw [List.map_map]
    have : eraseSeriesInfo ∘ stampGrid = eraseSeriesInfo := by
      funext f
      exact eraseSeriesInfo_stampGrid f
    rw [this]

/-- Witness for C4: the amended mutation statement applied to the
single-forecast input whose Temperature series carries a sentinel
Name. -/
theorem C4_mutation_only_stamps_witness :
    (AverageForecast [gridC4] false).map (fun pr => pr.1) =
      .ok ([gridC4].map stampGrid) :=
  (C4_mutation_only_stamps [gridC4] false (by decide)).1

theorem optionBind_some {α β : Type} {o : Option α} {k : α → Option β} {b : β}
    (h : o.bind k = some b) : ∃ a, o = some a ∧ k a = some b := by
  cases o with
  | none => exact Option.noConfusion h
  | some a => exact ⟨a, rfl, h⟩

/-- The loop of AverageForecast computes exactly the goWindow fold. -/
theorem avgLoop_window (n : Rat) (u : String) :
    ∀ (fs : List ForecastGridResponse) (i : Nat) (a b : GoTime) (me : Rat)
      (arrays : SeriesArrays) (post : List ForecastGridResponse)
      (out : GoTime × GoTime × Rat × SeriesArrays × List ForecastGridResponse),
    avgLoop n u fs i a b me arrays post = .ok out →
    fs.foldlM
      (fun (w : GoTime × GoTime) f => do
        let vt ← f.validTimes
        pure (if vt.time < w.1 then vt.time else w.1,
          if vt.endTime > w.2 then vt.endTime else w.2))
      (a, b) = some (out.1, out.2.1) := by
  intro fs
  induction fs with
  | nil =>
      intro i a b me arrays post out h
      unfold avgLoop at h
      have := exceptPure_ok h
      rw [← this]
      rfl
  | cons f rest ih =>
      intro i a b me arrays post out h
      unfold avgLoop at h
      split at h
      · exact Except.noConfusion h
      · obtain ⟨u0, hu0, h⟩ := exceptBind_ok h
        obtain ⟨pr, hpr, h⟩ := exceptBind_ok h
        obtain ⟨vt, hvt, h⟩ := exceptBind_ok h
        have := ih (i + 1) _ _ _ _ (pr.1 :: post) out h
        rw [List.foldlM_cons, orPanic_okk hvt]
        exact this


/-- Generic length preservation along a state fold. -/
theorem foldlM_out_length {α : Type}
    (step : HState → α → Except AvgError HState)
    (hstep : ∀ s a s', step s a = .ok s' → s'.out.length = s.out.length) :
    ∀ (l : List α) (st st' : HState), l.foldlM step st = .ok st' →
    st'.out.length = st.out.length := by
  intro l
  induction l with
  | nil =>
      intro st st' h
      have := exceptPure_ok h
      rw [← this]
  | cons a rest ih =>
      intro st st' h
      rw [List.foldlM_cons] at h
      obtain ⟨st1, h1, h2⟩ := exceptBind_ok h
      rw [ih st1 st' h2, hstep st a st1 h1]

theorem pushSlot_length {st st' : HState} {slot : ForecastTimeseriesValue}
    (h : pushSlot st slot = .ok st') : st'.out.length = st.out.length := by
  obtain ⟨_, hst⟩ := pushSlot_ok h
  rw [hst]
  simp

theorem setSlot_length {st st' : HState} {idx : Nat} {slot : ForecastTimeseriesValue}
    (h : setSlot st idx slot = .ok st') : st'.out.length = st.out.length := by
  obtain ⟨_, hst⟩ := setSlot_ok h
  rw [hst]
  simp

theorem gapFill_length {N : Nat} {st st' : HState} {v : ForecastTimeseriesValue}
    (h : gapFill N st v = .ok st') : st'.out.length = st.out.length := by
  unfold gapFill at h
  split at h
  · obtain ⟨lv, hlv, h2⟩ := exceptBind_ok h
    exact foldlM_out_length _ (fun s a s' hh => pushSlot_length hh) _ st st' h2
  · have := exceptPure_ok h
    rw [← this]

theorem spanFill_length {N : Nat} {st st' : HState} {v : ForecastTimeseriesValue}
    (h : spanFill N st v = .ok st') : st'.out.length = st.out.length := by
  unfold spanFill at h
  refine foldlM_out_length _ ?_ _ st st' h
  intro s a s' hh
  split at hh
  · have := exceptPure_ok hh
    rw [← this]
  · exact pushSlot_length hh

/-- Success of `hourly` pins the result's first and last instants to the
requested window bounds and its length to the slot count; this needs no
validity hypotheses, it is exactly what the final checks enforce. -/
theorem hourly_bounds {ts : ForecastTimeseries} {tMin tMax : GoTime}
    {res : ForecastTimeseries} (hok : hourly ts tMin tMax = .ok res) :
    (∃ v, res.values.head? = some v ∧ v.time.time = tMin) ∧
    (∃ v, res.values.getLast? = some v ∧ v.time.time = tMax) ∧
    res.values ≠ [] := by
  unfold hourly at hok
  by_cases hNZ : (hoursTrunc (tMax - tMin) + 1 < 0)
  · rw [if_pos hNZ] at hok
    exact Except.noConfusion hok
  rw [if_neg hNZ] at hok
  obtain ⟨u0, hu0, hok⟩ := exceptBind_ok hok
  cases hvals : ts.values with
  | nil => rw [hvals] at hok; exact Except.noConfusion hok
  | cons v0 rest =>
  rw [hvals] at hok
  obtain ⟨fv, hfv, hok⟩ := exceptBind_ok hok
  obtain rfl : v0 = fv := Except.ok.inj hfv
  obtain ⟨st1, hst1, hok⟩ := exceptBind_ok hok
  obtain ⟨st2, hst2, hok⟩ := exceptBind_ok hok
  by_cases h20 : st2.hr = 0
  · rw [if_pos h20] at hok
    exact Except.noConfusion hok
  rw [if_neg h20] at hok
  obtain ⟨u1, hu1, hok⟩ := exceptBind_ok hok
  obtain ⟨lastValue, hlastV, hok⟩ := exceptBind_ok hok
  obtain ⟨st3, hst3, hok⟩ := exceptBind_ok hok
  obtain ⟨firstH, hfirstH, hok⟩ := exceptBind_ok hok
  by_cases hN0 : (hoursTrunc (tMax - tMin) + 1).toNat = 0
  · rw [if_pos hN0] at hok
    exact Except.noConfusion hok
  rw [if_neg hN0] at hok
  obtain ⟨u2, hu2, hok⟩ := exceptBind_ok hok
  obtain ⟨lastH, hlastH, hok⟩ := exceptBind_ok hok
  by_cases hfm : firstH.time.time ≠ tMin
  · rw [if_pos hfm] at hok
    exact Except.noConfusion hok
  rw [if_neg hfm] at hok
  obtain ⟨u3, hu3, hok⟩ := exceptBind_ok hok
  by_cases hlm : lastH.time.time ≠ tMax
  · rw [if_pos hlm] at hok
    exact Except.noConfusion hok
  rw [if_neg hlm] at hok
  obtain ⟨u4, hu4, hok⟩ := exceptBind_ok hok
  obtain ⟨values, hvaluesM, hok⟩ := exceptBind_ok hok
  have hres := exceptPure_ok hok
  push_neg at hfm hlm
  set N : Nat := (hoursTrunc (tMax - tMin) + 1).toNat with hN
  -- length bookkeeping down the pipeline
  have hlen1 : st1.out.length = N := by
    have := foldlM_out_length _ (fun s a s' hh => pushSlot_length hh) _ _ _ hst1
    rw [this]
    simp
  have hlen2 : st2.out.length = N := by
    have : st2.out.length = st1.out.length := by
      refine foldlM_out_length _ ?_ _ _ _ hst2
      intro s a s' hh
      obtain ⟨sm, hm1, hm2⟩ := exceptBind_ok hh
      rw [spanFill_length hm2, gapFill_length hm1]
    rw [this, hlen1]
  have hlen3 : st3.out.length = N := by
    have : st3.out.length = st2.out.length := by
      refine foldlM_out_length _ ?_ _ _ _ hst3
      intro s a s' hh
      exact setSlot_length hh
    rw [this, hlen2]
  obtain ⟨hvlen, hvget⟩ := mapM_orPanic_ok st3.out values hvaluesM
  have hvlenN : values.length = N := by rw [hvlen, hlen3]
  have hresv : res.values = values := by rw [← hres]
  refine ⟨⟨firstH, ?_, hfm⟩, ⟨lastH, ?_, hlm⟩, ?_⟩
  · rw [hresv, List.head?_eq_getElem?, hvget 0]
    unfold slotAt at *
    exact readSlot_ok hfirstH
  · rw [hresv, List.getLast?_eq_getElem?, hvlenN, hvget (N - 1)]
    exact readSlot_ok hlastH
  · rw [hresv]
    intro hcon
    rw [hcon] at hvlenN
    exact hN0 hvlenN.symm


/-- `addValues` returns a pointwise-updated copy of its accumulator: the
time stamps are untouched. -/
theorem addValues_ok_times (n : Rat) :
    ∀ (hs as as' : List ForecastTimeseriesValue),
    addValues n hs as = .ok as' →
    as'.map (fun v => v.time) = as.map (fun v => v.time) := by
  intro hs
  induction hs with
  | nil =>
      intro as as' h
      unfold addValues at h
      rw [exceptPure_ok h]
  | cons e rest ih =>
      intro as as' h
      cases as with
      | nil =>
          unfold addValues at h
          exact Except.noConfusion h
      | cons a tl =>
          unfold addValues at h
          split at h
          · exact Except.noConfusion h
          · obtain ⟨u0, hu0, h⟩ := exceptBind_ok h
            obtain ⟨tl', htl, h⟩ := exceptBind_ok h
            rw [← exceptPure_ok h]
            simp only [List.map_cons]
            rw [ih tl tl' htl]

/-- The accumulation loop of `averageForecastTimeseries` keeps the time
stamps of its accumulator. -/
theorem avgTsLoop_times (n : Rat) (u : String) (tsMin tsMax : GoTime) :
    ∀ (fcsts : List ForecastTimeseries) (i : Nat)
      (av out : List ForecastTimeseriesValue),
    avgTsLoop n u tsMin tsMax fcsts i av = .ok out →
    out.map (fun v => v.time) = av.map (fun v => v.time) := by
  intro fcsts
  induction fcsts with
  | nil =>
      intro i av out h
      unfold avgTsLoop at h
      rw [exceptPure_ok h]
  | cons fcst rest ih =>
      intro i av out h
      unfold avgTsLoop at h
      split at h
      · exact Except.noConfusion h
      · obtain ⟨u0, hu0, h⟩ := exceptBind_ok h
        obtain ⟨fh, hfh, h⟩ := exceptBind_ok h
        split at h
        · exact Except.noConfusion h
        · obtain ⟨u1, hu1, h⟩ := exceptBind_ok h
          obtain ⟨av1, hav1, h⟩ := exceptBind_ok h
          rw [ih (i + 1) av1 out h, addValues_ok_times n fh.values av av1 hav1]

/-- A successful series average spans exactly the window it was asked
for: its first instant is `tsMin`, its last `tsMax`. -/
theorem avgTs_bounds {key : String} {fcsts : List ForecastTimeseries}
    {tsMin tsMax : GoTime} {root : List ForecastGridResponse}
    {out : ForecastTimeseries}
    (h : averageForecastTimeseries key fcsts tsMin tsMax root = .ok out) :
    (∃ v, out.values.head? = some v ∧ v.time.time = tsMin) ∧
    (∃ v, out.values.getLast? = some v ∧ v.time.time = tsMax) := by
  unfold averageForecastTimeseries at h
  cases hf : fcsts with
  | nil => rw [hf] at h; exact Except.noConfusion h
  | cons f0 rest =>
  rw [hf] at h
  obtain ⟨first, hfirst, h⟩ := exceptBind_ok h
  obtain rfl : f0 = first := Except.ok.inj hfirst
  obtain ⟨base, hbase, h⟩ := exceptBind_ok h
  obtain ⟨av, hav, h⟩ := exceptBind_ok h
  have hout := exceptPure_ok h
  have htimes := avgTsLoop_times _ _ _ _ _ _ _ _ hav
  obtain ⟨⟨vh, hvh, hvht⟩, ⟨vl, hvl, hvlt⟩, hne⟩ := hourly_bounds hbase
  have hmap :
      av.map (fun v => v.time) = base.values.map (fun v => v.time) := by
    rw [htimes, List.map_map]
    rfl
  have hvals : out.values = av := by rw [← hout]
  constructor
  · have : av.map (fun v => v.time) ≠ [] := by
      rw [hmap]
      simp [hne]
    obtain ⟨w, hw⟩ := List.exists_mem_of_ne_nil av (by simpa using this)
    have h1 : (av.map (fun v => v.time)).head? =
        (base.values.map (fun v => v.time)).head? := by rw [hmap]
    rw [List.head?_map, List.head?_map, hvh] at h1
    cases hav0 : av.head? with
    | none => rw [hav0] at h1; exact Option.noConfusion h1
    | some w0 =>
        rw [hav0] at h1
        refine ⟨w0, by rw [hvals, hav0], ?_⟩
        have : w0.time = vh.time := Option.some.inj h1
        rw [this, hvht]
  · have h1 : (av.map (fun v => v.time)).getLast? =
        (base.values.map (fun v => v.time)).getLast? := by rw [hmap]
    rw [List.getLast?_map, List.getLast?_map, hvl] at h1
    cases hav0 : av.getLast? with
    | none => rw [hav0] at h1; exact Option.noConfusion h1
    | some w0 =>
        rw [hav0] at h1
        refine ⟨w0, by rw [hvals, hav0], ?_⟩
        have : w0.time = vl.time := Option.some.inj h1
        rw [this, hvlt]


/-- C1 amended: the averaging window comes from the advertised validity
windows (seeded with the first Temperature instant), and the averaged
Temperature and SkyCover series both span exactly that window. -/
theorem C1_window_from_validity (fs : List ForecastGridResponse) (d : Bool)
    (hsucc : (AverageForecast fs d).isOk = true) :
    ∃ pr w ts sc, AverageForecast fs d = .ok pr ∧ goWindow fs = some w ∧
      pr.2.temperature = some ts ∧ pr.2.skyCover = some sc ∧
      (∃ v, ts.values.head? = some v ∧ v.time.time = w.1) ∧
      (∃ v, ts.values.getLast? = some v ∧ v.time.time = w.2) ∧
      (∃ v, sc.values.head? = some v ∧ v.time.time = w.1) ∧
      (∃ v, sc.values.getLast? = some v ∧ v.time.time = w.2) := by
  obtain ⟨pr, hco⟩ : ∃ pr, AverageForecast fs d = .ok pr := by
    cases hh : AverageForecast fs d with
    | ok pr => exact ⟨pr, rfl⟩
    | error e => rw [hh] at hsucc; exact absurd hsucc (by simp [Except.isOk, Except.toBool])
  have hok := hco
  unfold AverageForecast at hok
  cases fs with
  | nil => exact Except.noConfusion hok
  | cons f0 rest =>
  obtain ⟨t0, ht0, hok⟩ := exceptBind_ok hok
  cases hv : t0.values with
  | nil => rw [hv] at hok; exact Except.noConfusion hok
  | cons v0 vtl =>
  rw [hv] at hok
  obtain ⟨seedv, hseed, hok⟩ := exceptBind_ok hok
  obtain rfl : v0.time.time = seedv := Except.ok.inj hseed
  obtain ⟨quint, hloop, hok⟩ := exceptBind_ok hok
  obtain ⟨tsMin, tsMax, me, arrays, post⟩ := quint
  obtain ⟨mT, hmT, hok⟩ := exceptBind_ok hok
  obtain ⟨mSC, hmSC, hok⟩ := exceptBind_ok hok
  obtain ⟨mWS, hmWS, hok⟩ := exceptBind_ok hok
  obtain ⟨mPP, hmPP, hok⟩ := exceptBind_ok hok
  obtain ⟨mPQ, hmPQ, hok⟩ := exceptBind_ok hok
  obtain ⟨mSF, hmSF, hok⟩ := exceptBind_ok hok
  obtain ⟨mSL, hmSL, hok⟩ := exceptBind_ok hok
  obtain ⟨result, hres, hok⟩ := exceptBind_ok hok
  have hpr := exceptPure_ok hok
  have hresult := Except.ok.inj hres
  have hwin := avgLoop_window _ _ _ _ _ _ _ _ _ _ hloop
  have hgo : goWindow (f0 :: rest) = some (tsMin, tsMax) := by
    have e1 : goWindow (f0 :: rest) =
        Option.bind f0.temperature (fun t0 =>
          Option.bind t0.values.head? (fun v0 =>
            (f0 :: rest).foldlM
              (fun (w : GoTime × GoTime) f => do
                let vt ← f.validTimes
                pure (if vt.time < w.1 then vt.time else w.1,
                  if vt.endTime > w.2 then vt.endTime else w.2))
              (v0.time.time, v0.time.time))) := rfl
    rw [e1, orPanic_okk ht0, Option.some_bind, hv, List.head?_cons, Option.some_bind]
    exact hwin
  refine ⟨pr, (tsMin, tsMax), mT, mSC, hco, hgo, ?_, ?_, ?_⟩
  · rw [← hpr, ← hresult]
    rfl
  · rw [← hpr, ← hresult]
    rfl
  · obtain ⟨hTh, hTl⟩ := avgTs_bounds hmT
    obtain ⟨hSh, hSl⟩ := avgTs_bounds hmSC
    exact ⟨hTh, hTl, hSh, hSl⟩


/-- Witness for C1: the window theorem applied to the single forecast
whose SkyCover series outruns its advertised validity window. -/
theorem C1_window_from_validity_witness :
    (AverageForecast [gridC1] false).isOk = true ∧
    (∃ pr w ts sc, AverageForecast [gridC1] false = .ok pr ∧
      goWindow [gridC1] = some w ∧
      pr.2.temperature = some ts ∧ pr.2.skyCover = some sc ∧
      (∃ v, ts.values.head? = some v ∧ v.time.time = w.1) ∧
      (∃ v, ts.values.getLast? = some v ∧ v.time.time = w.2) ∧
      (∃ v, sc.values.head? = some v ∧ v.time.time = w.1) ∧
      (∃ v, sc.values.getLast? = some v ∧ v.time.time = w.2)) :=
  ⟨by decide, C1_window_from_validity [gridC1] false (by decide)⟩

theorem exceptOkBind {ε α β : Type} (a : α) (k : α → Except ε β) :
    (Except.ok a >>= k : Except ε β) = k a := rfl

theorem exceptErrBind {ε α β : Type} (e : ε) (k : α → Except ε β) :
    ((Except.error e : Except ε α) >>= k : Except ε β) = .error e := rfl

theorem exceptBind_err {ε α β : Type} {e : Except ε α} {k : α → Except ε β} {er : ε}
    (h : (e >>= k) = .error er) :
    e = .error er ∨ ∃ a, e = .ok a ∧ k a = .error er := by
  cases e with
  | error e0 =>
      left
      have : e0 = er := Except.error.inj h
      rw [this]
  | ok a => exact .inr ⟨a, rfl, h⟩

theorem exceptGuard_err {ε β : Type} {c : Prop} [Decidable c] {e : ε}
    {k : PUnit → Except ε β} {er : ε}
    (h : ((if c then throw e else pure PUnit.unit) >>= k) = .error er) :
    er = e ∨ k PUnit.unit = .error er := by
  by_cases hc : c
  · rw [if_pos hc] at h
    exact .inl (Except.error.inj h).symm
  · rw [if_neg hc] at h
    exact .inr h

theorem orPanic_err {α : Type} {o : Option α} {er : AvgError}
    (h : orPanic o = .error er) : er.isElevMismatch = false := by
  cases o with
  | none =>
      rw [← Except.error.inj h]
      rfl
  | some a => exact Except.noConfusion h

theorem pushSlot_err {st : HState} {slot : ForecastTimeseriesValue} {er : AvgError}
    (h : pushSlot st slot = .error er) : er.isElevMismatch = false := by
  unfold pushSlot at h
  split at h
  · exact Except.noConfusion h
  · rw [← Except.error.inj h]
    rfl

theorem setSlot_err {st : HState} {idx : Nat} {slot : ForecastTimeseriesValue} {er : AvgError}
    (h : setSlot st idx slot = .error er) : er.isElevMismatch = false := by
  unfold setSlot at h
  split at h
  · exact Except.noConfusion h
  · rw [← Except.error.inj h]
    rfl

theorem readSlot_err {st : HState} {idx : Nat} {er : AvgError}
    (h : readSlot st idx = .error er) : er.isElevMismatch = false := by
  unfold readSlot at h
  split at h
  · exact Except.noConfusion h
  · rw [← Except.error.inj h]
    rfl
  · rw [← Except.error.inj h]
    rfl

theorem foldlM_err {σ α : Type} (step : σ → α → Except AvgError σ)
    (hstep : ∀ s a er, step s a = .error er → er.isElevMismatch = false) :
    ∀ (l : List α) (st : σ) (er : AvgError),
    l.foldlM step st = .error er → er.isElevMismatch = false := by
  intro l
  induction l with
  | nil =>
      intro st er h
      exact Except.noConfusion h
  | cons a rest ih =>
      intro st er h
      rw [List.foldlM_cons] at h
      rcases exceptBind_err h with h1 | ⟨s1, hs1, h2⟩
      · exact hstep st a er h1
      · exact ih s1 er h2

theorem gapFill_err {N : Nat} {st : HState} {v : ForecastTimeseriesValue} {er : AvgError}
    (h : gapFill N st v = .error er) : er.isElevMismatch = false := by
  unfold gapFill at h
  split at h
  · rcases exceptBind_err h with h1 | ⟨lv, hlv, h2⟩
    · exact readSlot_err h1
    · exact foldlM_err _ (fun s a e hh => pushSlot_err hh) _ _ _ h2
  · exact Except.noConfusion h

theorem spanFill_err {N : Nat} {st : HState} {v : ForecastTimeseriesValue} {er : AvgError}
    (h : spanFill N st v = .error er) : er.isElevMismatch = false := by
  unfold spanFill at h
  refine foldlM_err _ ?_ _ _ _ h
  intro s a e hh
  split at hh
  · exact Except.noConfusion hh
  · exact pushSlot_err hh

theorem mapM_orPanic_err :
    ∀ (l : List (Option ForecastTimeseriesValue)) (er : AvgError),
    l.mapM orPanic = .error er → er.isElevMismatch = false := by
  intro l
  induction l with
  | nil =>
      intro er h
      rw [List.mapM_nil] at h
      exact Except.noConfusion h
  | cons o rest ih =>
      intro er h
      rw [List.mapM_cons] at h
      rcases exceptBind_err h with h1 | ⟨v, hv, h2⟩
      · exact orPanic_err h1
      · rcases exceptBind_err h2 with h3 | ⟨tl, htl, h4⟩
        · exact ih er h3
        · exact Except.noConfusion h4

theorem hourly_err {ts : ForecastTimeseries} {tMin tMax : GoTime} {er : AvgError}
    (h : hourly ts tMin tMax = .error er) : er.isElevMismatch = false := by
  unfold hourly at h
  by_cases hNZ : (hoursTrunc (tMax - tMin) + 1 < 0)
  · rw [if_pos hNZ] at h
    rw [← Except.error.inj h]
    rfl
  rw [if_neg hNZ] at h
  rcases exceptBind_err h with h1 | ⟨u0, hu0, h⟩
  · exact Except.noConfusion h1
  cases hv : ts.values with
  | nil =>
      rw [hv] at h
      rw [← Except.error.inj h]
      rfl
  | cons v0 rest =>
  rw [hv] at h
  rcases exceptBind_err h with h1 | ⟨fv, hfv, h⟩
  · exact Except.noConfusion h1
  rcases exceptBind_err h with h1 | ⟨st1, hst1, h⟩
  · exact foldlM_err _ (fun s a e hh => pushSlot_err hh) _ _ _ h1
  rcases exceptBind_err h with h1 | ⟨st2, hst2, h⟩
  · refine foldlM_err _ ?_ _ _ _ h1
    intro s a e hh
    rcases exceptBind_err hh with hh1 | ⟨sm, hsm, hh2⟩
    · exact gapFill_err hh1
    · exact spanFill_err hh2
  by_cases h20 : st2.hr = 0
  · rw [if_pos h20] at h
    rw [← Except.error.inj h]
    rfl
  rw [if_neg h20] at h
  rcases exceptBind_err h with h1 | ⟨u1, hu1, h⟩
  · exact Except.noConfusion h1
  rcases exceptBind_err h with h1 | ⟨lv, hlv, h⟩
  · exact readSlot_err h1
  rcases exceptBind_err h with h1 | ⟨st3, hst3, h⟩
  · exact foldlM_err _ (fun s a e hh => setSlot_err hh) _ _ _ h1
  rcases exceptBind_err h with h1 | ⟨fh, hfh, h⟩
  · exact readSlot_err h1
  by_cases hN0 : (hoursTrunc (tMax - tMin) + 1).toNat = 0
  · rw [if_pos hN0] at h
    rw [← Except.error.inj h]
    rfl
  rw [if_neg hN0] at h
  rcases exceptBind_err h with h1 | ⟨u2, hu2, h⟩
  · exact Except.noConfusion h1
  rcases exceptBind_err h with h1 | ⟨lh, hlh, h⟩
  · exact readSlot_err h1
  by_cases hfm : fh.time.time ≠ tMin
  · rw [if_pos hfm] at h
    rw [← Except.error.inj h]
    rfl
  rw [if_neg hfm] at h
  rcases exceptBind_err h with h1 | ⟨u3, hu3, h⟩
  · exact Except.noConfusion h1
  by_cases hlm : lh.time.time ≠ tMax
  · rw [if_pos hlm] at h
    rw [← Except.error.inj h]
    rfl
  rw [if_neg hlm] at h
  rcases exceptBind_err h with h1 | ⟨u4, hu4, h⟩
  · exact Except.noConfusion h1
  rcases exceptBind_err h with h1 | ⟨vals, hvals, h⟩
  · exact mapM_orPanic_err _ _ h1
  · exact Except.noConfusion h


theorem timeseriesMap_err {f : ForecastGridResponse} {er : AvgError}
    (h : timeseriesMap f = .error er) : er.isElevMismatch = false := by
  unfold timeseriesMap at h
  rcases exceptBind_err h with h1 | ⟨t1, ht1, h⟩
  · exact orPanic_err h1
  rcases exceptBind_err h with h1 | ⟨t2, ht2, h⟩
  · exact orPanic_err h1
  rcases exceptBind_err h with h1 | ⟨t3, ht3, h⟩
  · exact orPanic_err h1
  rcases exceptBind_err h with h1 | ⟨t4, ht4, h⟩
  · exact orPanic_err h1
  rcases exceptBind_err h with h1 | ⟨t5, ht5, h⟩
  · exact orPanic_err h1
  rcases exceptBind_err h with h1 | ⟨t6, ht6, h⟩
  · exact orPanic_err h1
  rcases exceptBind_err h with h1 | ⟨t7, ht7, h⟩
  · exact orPanic_err h1
  exact Except.noConfusion h

theorem addValues_err (n : Rat) :
    ∀ (hs as : List ForecastTimeseriesValue) (er : AvgError),
    addValues n hs as = .error er → er.isElevMismatch = false := by
  intro hs
  induction hs with
  | nil =>
      intro as er h
      unfold addValues at h
      exact Except.noConfusion h
  | cons e rest ih =>
      intro as er h
      cases as with
      | nil =>
          unfold addValues at h
          rw [← Except.error.inj h]
          rfl
      | cons a tl =>
          unfold addValues at h
          split at h
          · rw [← Except.error.inj h]
            rfl
          · rcases exceptBind_err h with h1 | ⟨u0, hu0, h⟩
            · exact Except.noConfusion h1
            rcases exceptBind_err h with h1 | ⟨tl2, htl2, h⟩
            · exact ih tl er h1
            · exact Except.noConfusion h

theorem avgTsLoop_err (n : Rat) (u : String) (tsMin tsMax : GoTime) :
    ∀ (fcsts : List ForecastTimeseries) (i : Nat)
      (av : List ForecastTimeseriesValue) (er : AvgError),
    avgTsLoop n u tsMin tsMax fcsts i av = .error er → er.isElevMismatch = false := by
  intro fcsts
  induction fcsts with
  | nil =>
      intro i av er h
      unfold avgTsLoop at h
      exact Except.noConfusion h
  | cons fcst rest ih =>
      intro i av er h
      unfold avgTsLoop at h
      split at h
      · rw [← Except.error.inj h]
        rfl
      · rcases exceptBind_err h with h1 | ⟨u0, hu0, h⟩
        · exact Except.noConfusion h1
        rcases exceptBind_err h with h1 | ⟨fh, hfh, h⟩
        · exact hourly_err h1
        split at h
        · rw [← Except.error.inj h]
          rfl
        · rcases exceptBind_err h with h1 | ⟨u1, hu1, h⟩
          · exact Except.noConfusion h1
          rcases exceptBind_err h with h1 | ⟨av1, hav1, h⟩
          · exact addValues_err n fh.values av er h1
          · exact ih (i + 1) av1 er h

theorem averageForecastTimeseries_err {key : String}
    {fcsts : List ForecastTimeseries} {tsMin tsMax : GoTime}
    {root : List ForecastGridResponse} {er : AvgError}
    (h : averageForecastTimeseries key fcsts tsMin tsMax root = .error er) :
    er.isElevMismatch = false := by
  unfold averageForecastTimeseries at h
  cases hf : fcsts with
  | nil =>
      rw [hf] at h
      rw [← Except.error.inj h]
      rfl
  | cons f0 rest =>
  rw [hf] at h
  rcases exceptBind_err h with h1 | ⟨first, hfirst, h⟩
  · exact Except.noConfusion h1
  rcases exceptBind_err h with h1 | ⟨base, hbase, h⟩
  · exact hourly_err h1
  rcases exceptBind_err h with h1 | ⟨av, hav, h⟩
  · exact avgTsLoop_err _ _ _ _ _ _ _ _ h1
  · exact Except.noConfusion h

theorem avgLoop_err (n : Rat) (u : String) :
    ∀ (fs : List ForecastGridResponse) (i : Nat) (a b : GoTime) (me : Rat)
      (arrays : SeriesArrays) (post : List ForecastGridResponse) (er : AvgError),
    (∀ f ∈ fs, f.elevation.units = u) →
    avgLoop n u fs i a b me arrays post = .error er →
    er.isElevMismatch = false := by
  intro fs
  induction fs with
  | nil =>
      intro i a b me arrays post er hall h
      unfold avgLoop at h
      exact Except.noConfusion h
  | cons f rest ih =>
      intro i a b me arrays post er hall h
      unfold avgLoop at h
      by_cases hc : f.elevation.units ≠ u
      · exact absurd (hall f (List.mem_cons_self f rest)) hc
      rw [if_neg hc] at h
      rcases exceptBind_err h with h1 | ⟨u0, hu0, h⟩
      · exact Except.noConfusion h1
      rcases exceptBind_err h with h1 | ⟨pr, hpr, h⟩
      · exact timeseriesMap_err h1
      rcases exceptBind_err h with h1 | ⟨vt, hvt, h⟩
      · exact orPanic_err h1
      exact ih (i + 1) _ _ _ _ _ er
        (fun g hg => hall g (List.mem_cons_of_mem f hg)) h


theorem timeseriesMap_wf {f : ForecastGridResponse} (h : WFGrid f) :
    ∃ pr, timeseriesMap f = .ok pr := by
  obtain ⟨h1, h2, h3, h4, h5, h6, h7, h8⟩ := h
  obtain ⟨t1, ht1⟩ := Option.isSome_iff_exists.mp h1
  obtain ⟨t2, ht2⟩ := Option.isSome_iff_exists.mp h2
  obtain ⟨t3, ht3⟩ := Option.isSome_iff_exists.mp h3
  obtain ⟨t4, ht4⟩ := Option.isSome_iff_exists.mp h4
  obtain ⟨t5, ht5⟩ := Option.isSome_iff_exists.mp h5
  obtain ⟨t6, ht6⟩ := Option.isSome_iff_exists.mp h6
  obtain ⟨t7, ht7⟩ := Option.isSome_iff_exists.mp h7
  cases hr : timeseriesMap f with
  | ok pr => exact ⟨pr, rfl⟩
  | error e =>
      exfalso
      unfold timeseriesMap at hr
      rcases exceptBind_err hr with hx | ⟨x1, hx1, hr⟩
      · rw [ht1] at hx
        exact Except.noConfusion hx
      rcases exceptBind_err hr with hx | ⟨x2, hx2, hr⟩
      · rw [ht2] at hx
        exact Except.noConfusion hx
      rcases exceptBind_err hr with hx | ⟨x3, hx3, hr⟩
      · rw [ht3] at hx
        exact Except.noConfusion hx
      rcases exceptBind_err hr with hx | ⟨x4, hx4, hr⟩
      · rw [ht4] at hx
        exact Except.noConfusion hx
      rcases exceptBind_err hr with hx | ⟨x5, hx5, hr⟩
      · rw [ht5] at hx
        exact Except.noConfusion hx
      rcases exceptBind_err hr with hx | ⟨x6, hx6, hr⟩
      · rw [ht6] at hx
        exact Except.noConfusion hx
      rcases exceptBind_err hr with hx | ⟨x7, hx7, hr⟩
      · rw [ht7] at hx
        exact Except.noConfusion hx
      exact Except.noConfusion hr

/-- When a forecast's elevation units disagree with the base and every
forecast before it is well formed, the collection loop stops with the
mismatch error naming that forecast's index. -/
theorem avgLoop_mismatch (n : Rat) (u : String) :
    ∀ (fs : List ForecastGridResponse) (i : Nat) (a b : GoTime) (me : Rat)
      (arrays : SeriesArrays) (post : List ForecastGridResponse) (j : Nat),
    firstBadUnits u fs = some j →
    (∀ k, k < j → WFAt fs k) →
    avgLoop n u fs i a b me arrays post = .error (.elevationUnitsMismatch (i + j)) := by
  intro fs
  induction fs with
  | nil =>
      intro i a b me arrays post j hidx hwf
      exact Option.noConfusion hidx
  | cons f rest ih =>
      intro i a b me arrays post j hidx hwf
      unfold firstBadUnits at hidx
      by_cases hc : f.elevation.units ≠ u
      · rw [if_pos hc] at hidx
        obtain rfl : (0 : Nat) = j := Option.some.inj hidx
        unfold avgLoop
        rw [if_pos hc]
        rfl
      · rw [if_neg hc] at hidx
        cases hrest : firstBadUnits u rest with
        | none =>
            rw [hrest] at hidx
            exact Option.noConfusion hidx
        | some j0 =>
            rw [hrest] at hidx
            obtain rfl : j0 + 1 = j := Option.some.inj hidx
            have hwff : WFGrid f := by
              have := hwf 0 (by omega)
              unfold WFAt at this
              simpa using this
            obtain ⟨⟨pr1, pr2⟩, hpr⟩ := timeseriesMap_wf hwff
            obtain ⟨vt, hvt⟩ := Option.isSome_iff_exists.mp hwff.2.2.2.2.2.2.2
            have hwf0 : ∀ k, k < j0 → WFAt rest k := by
              intro k hk
              have := hwf (k + 1) (by omega)
              unfold WFAt at this ⊢
              simpa using this
            have harith : i + (j0 + 1) = (i + 1) + j0 := by omega
            rw [harith]
            have hrec := ih (i + 1)
              (if vt.time < a then vt.time else a)
              (if vt.endTime > b then vt.endTime else b)
              (me + f.elevation.value / n)
              (appendArrays arrays pr2) (pr1 :: post) j0 hrest hwf0
            unfold avgLoop
            rw [if_neg hc]
            simp only [hpr, hvt, orPanic, exceptOkBind]
            exact hrec


/-- C9 counterexample: with a malformed forecast ahead of the offending
index, averaging dies with a nil panic instead of the promised
unit-mismatch error, although the second input's elevation units do
differ from the first's. -/
theorem C9_counterexample :
    gridC9ft.elevation.units ≠ gridC9missing.elevation.units ∧
    AverageForecast [gridC9missing, gridC9ft] false = .error .panicNil ∧
    ∀ j, AvgError.panicNil ≠ AvgError.elevationUnitsMismatch j :=
  ⟨by decide, by decide, fun j h => AvgError.noConfusion h⟩

/-- C9: a forecast whose elevation-unit string differs from the first
input's makes averaging fail with the mismatch error naming the first
offending index (provided the forecasts before that index are well formed
enough to be reached); and when all inputs share the first input's
elevation-unit string, no outcome of averaging is that error. -/
theorem C9_elevation_units (f0 : ForecastGridResponse)
    (rest : List ForecastGridResponse) (d : Bool) :
    (∀ j, firstBadUnits f0.elevation.units (f0 :: rest) = some j →
      (∀ k, k < j → WFAt (f0 :: rest) k) →
      f0.temperature.map (fun t => t.values.isEmpty) = some false →
      AverageForecast (f0 :: rest) d = .error (.elevationUnitsMismatch j)) ∧
    ((∀ f ∈ f0 :: rest, f.elevation.units = f0.elevation.units) →
      ∀ er, AverageForecast (f0 :: rest) d = .error er →
      er.isElevMismatch = false) := by
  constructor
  · intro j hidx hwf hseed
    cases hft : f0.temperature with
    | none =>
        rw [hft] at hseed
        exact Option.noConfusion hseed
    | some t0 =>
    rw [hft] at hseed
    have hne : t0.values.isEmpty = false := by simpa using hseed
    cases hv : t0.values with
    | nil =>
        rw [hv] at hne
        exact Bool.noConfusion hne
    | cons v0 vtl =>
    have havg := avgLoop_mismatch ((f0 :: rest).length : Rat) f0.elevation.units
      (f0 :: rest) 0 v0.time.time v0.time.time 0 {} [] j hidx hwf
    rw [Nat.zero_add] at havg
    unfold AverageForecast
    simp only [hft, orPanic, exceptOkBind, hv, pure_bind, havg, exceptErrBind]
  · intro hall er h
    unfold AverageForecast at h
    rcases exceptBind_err h with h1 | ⟨t0, ht0, h⟩
    · exact orPanic_err h1
    cases hv : t0.values with
    | nil =>
        rw [hv] at h
        rw [← Except.error.inj h]
        rfl
    | cons v0 vtl =>
    rw [hv] at h
    rcases exceptBind_err h with h1 | ⟨seedv, hseedv, h⟩
    · exact Except.noConfusion h1
    rcases exceptBind_err h with h1 | ⟨quint, hquint, h⟩
    · exact avgLoop_err _ _ _ _ _ _ _ _ _ _ hall h1
    obtain ⟨tsMin, tsMax, me, arrays, post⟩ := quint
    rcases exceptBind_err h with h1 | ⟨m1, hm1, h⟩
    · exact averageForecastTimeseries_err h1
    rcases exceptBind_err h with h1 | ⟨m2, hm2, h⟩
    · exact averageForecastTimeseries_err h1
    rcases exceptBind_err h with h1 | ⟨m3, hm3, h⟩
    · exact averageForecastTimeseries_err h1
    rcases exceptBind_err h with h1 | ⟨m4, hm4, h⟩
    · exact averageForecastTimeseries_err h1
    rcases exceptBind_err h with h1 | ⟨m5, hm5, h⟩
    · exact averageForecastTimeseries_err h1
    rcases exceptBind_err h with h1 | ⟨m6, hm6, h⟩
    · exact averageForecastTimeseries_err h1
    rcases exceptBind_err h with h1 | ⟨m7, hm7, h⟩
    · exact averageForecastTimeseries_err h1
    rcases exceptBind_err h with h1 | ⟨result, hres, h⟩
    · exact Except.noConfusion h1
    · exact Except.noConfusion h

/-- Witness for C9: metres-versus-feet inputs fail with the mismatch at
index 1; two metres inputs never see that error. -/
theorem C9_elevation_units_witness :
    (firstBadUnits gridC9m.elevation.units [gridC9m, gridC9ft] = some 1 ∧
      AverageForecast [gridC9m, gridC9ft] false =
        .error (.elevationUnitsMismatch 1)) ∧
    ((∀ f ∈ [gridC9m, gridC9m], f.elevation.units = gridC9m.elevation.units) ∧
      ∀ er, AverageForecast [gridC9m, gridC9m] false = .error er →
      er.isElevMismatch = false) := by
  constructor
  · exact ⟨by decide,
      (C9_elevation_units gridC9m [gridC9ft] false).1 1 (by decide) (by decide) (by decide)⟩
  · exact ⟨by decide,
      (C9_elevation_units gridC9m [gridC9m] false).2 (by decide)⟩

theorem if_lt_min (x m : Int) : (if x < m then x else m) = min m x := by
  split
  · exact (min_eq_right (le_of_lt (by assumption))).symm
  · exact (min_eq_left (by linarith [not_lt.mp (by assumption)])).symm

theorem if_gt_max (x m : Int) : (if x > m then x else m) = max m x := by
  split
  · exact (max_eq_right (le_of_lt (by assumption))).symm
  · exact (max_eq_left (by linarith [not_lt.mp (by assumption)])).symm

/-- A successful `hourly` run keeps the series' units (and labels). -/
theorem hourly_units {ts : ForecastTimeseries} {tMin tMax : GoTime}
    {res : ForecastTimeseries} (hok : hourly ts tMin tMax = .ok res) :
    res.units = ts.units := by
  unfold hourly at hok
  by_cases hNZ : (hoursTrunc (tMax - tMin) + 1 < 0)
  · rw [if_pos hNZ] at hok
    exact Except.noConfusion hok
  rw [if_neg hNZ] at hok
  obtain ⟨u0, hu0, hok⟩ := exceptBind_ok hok
  cases hvals : ts.values with
  | nil => rw [hvals] at hok; exact Except.noConfusion hok
  | cons v0 rest =>
  rw [hvals] at hok
  obtain ⟨fv, hfv, hok⟩ := exceptBind_ok hok
  obtain ⟨st1, hst1, hok⟩ := exceptBind_ok hok
  obtain ⟨st2, hst2, hok⟩ := exceptBind_ok hok
  by_cases h20 : st2.hr = 0
  · rw [if_pos h20] at hok
    exact Except.noConfusion hok
  rw [if_neg h20] at hok
  obtain ⟨u1, hu1, hok⟩ := exceptBind_ok hok
  obtain ⟨lastValue, hlastV, hok⟩ := exceptBind_ok hok
  obtain ⟨st3, hst3, hok⟩ := exceptBind_ok hok
  obtain ⟨firstH, hfirstH, hok⟩ := exceptBind_ok hok
  by_cases hN0 : (hoursTrunc (tMax - tMin) + 1).toNat = 0
  · rw [if_pos hN0] at hok
    exact Except.noConfusion hok
  rw [if_neg hN0] at hok
  obtain ⟨u2, hu2, hok⟩ := exceptBind_ok hok
  obtain ⟨lastH, hlastH, hok⟩ := exceptBind_ok hok
  by_cases hfm : firstH.time.time ≠ tMin
  · rw [if_pos hfm] at hok
    exact Except.noConfusion hok
  rw [if_neg hfm] at hok
  obtain ⟨u3, hu3, hok⟩ := exceptBind_ok hok
  by_cases hlm : lastH.time.time ≠ tMax
  · rw [if_pos hlm] at hok
    exact Except.noConfusion hok
  rw [if_neg hlm] at hok
  obtain ⟨u4, hu4, hok⟩ := exceptBind_ok hok
  obtain ⟨values, hvaluesM, hok⟩ := exceptBind_ok hok
  have hres := exceptPure_ok hok
  rw [← hres]

/-- Full characterisation of a successful `addValues` on equally long
lists: times must agree pairwise and the output is the pointwise
accumulation. -/
theorem addValues_char (n : Rat) :
    ∀ (hs as out : List ForecastTimeseriesValue),
    hs.length = as.length → addValues n hs as = .ok out →
    hs.map (fun v => v.time) = as.map (fun v => v.time) ∧
    out = List.zipWith (accStep n) hs as := by
  intro hs
  induction hs with
  | nil =>
      intro as out hlen h
      cases as with
      | nil =>
          unfold addValues at h
          obtain rfl := exceptPure_ok h
          exact ⟨rfl, rfl⟩
      | cons a tl => exact absurd hlen (by simp)
  | cons e rest ih =>
      intro as out hlen h
      cases as with
      | nil => exact absurd hlen (by simp)
      | cons a tl =>
          unfold addValues at h
          split at h
          · exact Except.noConfusion h
          · obtain ⟨u0, hu0, h⟩ := exceptBind_ok h
            obtain ⟨tl2, htl2, h⟩ := exceptBind_ok h
            obtain rfl := exceptPure_ok h
            have hteq : e.time = a.time := by
              by_contra hne
              exact absurd (by assumption : ¬e.time ≠ a.time) (fun hc => hc hne)
            obtain ⟨iht, ihz⟩ := ih tl tl2 (by simpa using hlen) htl2
            constructor
            · simp only [List.map_cons, hteq, iht]
            · simp only [List.zipWith_cons_cons]
              rw [ihz]
              rfl


/-- The name-keyed pair list a successful `timeseriesMap` returns: the
forecast's own seven series, stamped. -/
theorem timeseriesMap_pairs {f : ForecastGridResponse}
    {pr : ForecastGridResponse × List (String × ForecastTimeseries)}
    (h : timeseriesMap f = .ok pr) :
    ∃ t1 t2 t3 t4 t5 t6 t7,
      f.temperature = some t1 ∧ f.skyCover = some t2 ∧ f.windSpeed = some t3 ∧
      f.precipitationProbability = some t4 ∧ f.precipitationQuantity = some t5 ∧
      f.snowFallAmount = some t6 ∧ f.snowLevel = some t7 ∧
      pr.2 = [("Temperature", t1.fillInfo "Temperature" f.id),
        ("SkyCover", t2.fillInfo "SkyCover" f.id),
        ("WindSpeed", t3.fillInfo "WindSpeed" f.id),
        ("PrecipitationProbability", t4.fillInfo "PrecipitationProbability" f.id),
        ("PrecipitationQuantity", t5.fillInfo "PrecipitationQuantity" f.id),
        ("SnowFallAmount", t6.fillInfo "SnowFallAmount" f.id),
        ("SnowLevel", t7.fillInfo "SnowLevel" f.id)] := by
  unfold timeseriesMap at h
  obtain ⟨t1, h1, h⟩ := exceptBind_ok h
  obtain ⟨t2, h2, h⟩ := exceptBind_ok h
  obtain ⟨t3, h3, h⟩ := exceptBind_ok h
  obtain ⟨t4, h4, h⟩ := exceptBind_ok h
  obtain ⟨t5, h5, h⟩ := exceptBind_ok h
  obtain ⟨t6, h6, h⟩ := exceptBind_ok h
  obtain ⟨t7, h7, h⟩ := exceptBind_ok h
  have hpr := exceptPure_ok h
  exact ⟨t1, t2, t3, t4, t5, t6, t7, orPanic_okk h1, orPanic_okk h2,
    orPanic_okk h3, orPanic_okk h4, orPanic_okk h5, orPanic_okk h6,
    orPanic_okk h7, by rw [← hpr]⟩

/-- Two pointwise accumulations over a common zero base commute. -/
theorem zip2_comm (n : Rat) :
    ∀ (xs ys : List ForecastTimeseriesValue),
    xs.map (fun v => v.time) = ys.map (fun v => v.time) →
    List.zipWith (accStep n) xs
      (List.zipWith (accStep n) ys (ys.map zeroSlot)) =
    List.zipWith (accStep n) ys
      (List.zipWith (accStep n) xs (xs.map zeroSlot)) := by
  intro xs
  induction xs with
  | nil =>
      intro ys hts
      cases ys with
      | nil => rfl
      | cons y ytl => exact absurd hts (by simp)
  | cons x xtl ih =>
      intro ys hts
      cases ys with
      | nil => exact absurd hts (by simp)
      | cons y ytl =>
          simp only [List.map_cons, List.cons.injEq] at hts
          obtain ⟨hty, htl⟩ := hts
          simp only [List.map_cons, List.zipWith_cons_cons]
          rw [ih ytl htl]
          congr 1
          unfold accStep zeroSlot
          simp only [hty]
          have hval : (0 : Rat) + y.value / n + x.value / n =
              0 + x.value / n + y.value / n := by ring
          rw [hval]


/-- Full characterisation of a successful two-source series average. -/
theorem avgTs_pair_char {K : String} {a b : ForecastTimeseries} {w1 w2 : GoTime}
    {root : List ForecastGridResponse} {out : ForecastTimeseries}
    (h : averageForecastTimeseries K [a, b] w1 w2 root = .ok out) :
    ∃ hA hB, hourly a w1 w2 = .ok hA ∧ hourly b w1 w2 = .ok hB ∧
      b.units = a.units ∧
      hB.values.map (fun v => v.time) = hA.values.map (fun v => v.time) ∧
      out = pairAvg hA hB := by
  unfold averageForecastTimeseries at h
  obtain ⟨first, hfirst, h⟩ := exceptBind_ok h
  obtain rfl : a = first := Except.ok.inj hfirst
  obtain ⟨base, hbase, h⟩ := exceptBind_ok h
  obtain ⟨av, hav, h⟩ := exceptBind_ok h
  have hout := exceptPure_ok h
  unfold avgTsLoop at hav
  by_cases hca : a.units ≠ base.units
  · rw [if_pos hca] at hav
    exact Except.noConfusion hav
  rw [if_neg hca] at hav
  obtain ⟨u0, hu0, hav⟩ := exceptBind_ok hav
  obtain ⟨hA1, hhA1, hav⟩ := exceptBind_ok hav
  have heqA : hA1 = base := by
    rw [hbase] at hhA1
    exact (Except.ok.inj hhA1).symm
  subst heqA
  by_cases hlen1 : hA1.values.length ≠
      (hA1.values.map (fun e =>
        ({ time := e.time, value := 0 } : ForecastTimeseriesValue))).length
  · rw [if_pos hlen1] at hav
    exact Except.noConfusion hav
  rw [if_neg hlen1] at hav
  obtain ⟨u1, hu1, hav⟩ := exceptBind_ok hav
  obtain ⟨av1, hav1, hav⟩ := exceptBind_ok hav
  unfold avgTsLoop at hav
  by_cases hcb : b.units ≠ hA1.units
  · rw [if_pos hcb] at hav
    exact Except.noConfusion hav
  rw [if_neg hcb] at hav
  obtain ⟨u2, hu2, hav⟩ := exceptBind_ok hav
  obtain ⟨hB1, hhB1, hav⟩ := exceptBind_ok hav
  by_cases hlen2 : hB1.values.length ≠ av1.length
  · rw [if_pos hlen2] at hav
    exact Except.noConfusion hav
  rw [if_neg hlen2] at hav
  obtain ⟨u3, hu3, hav⟩ := exceptBind_ok hav
  obtain ⟨av2, hav2, hav⟩ := exceptBind_ok hav
  unfold avgTsLoop at hav
  obtain rfl : av2 = av := exceptPure_ok hav
  push_neg at hca hcb hlen1 hlen2
  obtain ⟨ht1, hz1⟩ := addValues_char _ _ _ _ hlen1 hav1
  obtain ⟨ht2, hz2⟩ := addValues_char _ _ _ _ hlen2 hav2
  have htav1 := addValues_ok_times _ _ _ _ hav1
  refine ⟨hA1, hB1, hbase, hhB1, by rw [hcb, hca], ?_, ?_⟩
  · rw [ht2, htav1]
    simp
  · rw [← hout, hz2, hz1]
    unfold pairAvg
    rfl

/-- Averaging the same two series in either order gives the same
result. -/
theorem avgTs_pair_comm {K1 K2 : String} {a b : ForecastTimeseries} {w1 w2 : GoTime}
    {r1 r2 : List ForecastGridResponse} {o1 o2 : ForecastTimeseries}
    (h1 : averageForecastTimeseries K1 [a, b] w1 w2 r1 = .ok o1)
    (h2 : averageForecastTimeseries K2 [b, a] w1 w2 r2 = .ok o2) :
    o2 = o1 := by
  obtain ⟨hA, hB, hhA, hhB, hba, hts, ho1⟩ := avgTs_pair_char h1
  obtain ⟨hB2, hA2, hhB2, hhA2, hab, hts2, ho2⟩ := avgTs_pair_char h2
  rw [hhB] at hhB2
  obtain rfl : hB = hB2 := Except.ok.inj hhB2
  rw [hhA] at hhA2
  obtain rfl : hA = hA2 := Except.ok.inj hhA2
  have huA := hourly_units hhA
  have huB := hourly_units hhB
  have hu : hB.units = hA.units := by rw [huA, huB, hba]
  rw [ho2, ho1]
  unfold pairAvg
  rw [hu, zip2_comm ((2 : Nat) : Rat) hA.values hB.values hts.symm]


/-- Full characterisation of a successful two-forecast collection loop. -/
theorem avgLoop_pair_char {n : Rat} {u : String} {A B : ForecastGridResponse}
    {s : GoTime} {q : GoTime × GoTime × Rat × SeriesArrays × List ForecastGridResponse}
    (h : avgLoop n u [A, B] 0 s s 0 {} [] = .ok q) :
    ∃ prA prB vtA vtB,
      timeseriesMap A = .ok prA ∧ timeseriesMap B = .ok prB ∧
      A.elevation.units = u ∧ B.elevation.units = u ∧
      A.validTimes = some vtA ∧ B.validTimes = some vtB ∧
      q.1 = min (min s vtA.time) vtB.time ∧
      q.2.1 = max (max s vtA.endTime) vtB.endTime ∧
      q.2.2.1 = 0 + A.elevation.value / n + B.elevation.value / n ∧
      q.2.2.2.1 = appendArrays (appendArrays {} prA.2) prB.2 := by
  unfold avgLoop at h
  by_cases hcA : A.elevation.units ≠ u
  · rw [if_pos hcA] at h
    exact Except.noConfusion h
  rw [if_neg hcA] at h
  obtain ⟨u0, hu0, h⟩ := exceptBind_ok h
  obtain ⟨prA, hprA, h⟩ := exceptBind_ok h
  obtain ⟨vtA, hvtA, h⟩ := exceptBind_ok h
  unfold avgLoop at h
  by_cases hcB : B.elevation.units ≠ u
  · rw [if_pos hcB] at h
    exact Except.noConfusion h
  rw [if_neg hcB] at h
  obtain ⟨u1, hu1, h⟩ := exceptBind_ok h
  obtain ⟨prB, hprB, h⟩ := exceptBind_ok h
  obtain ⟨vtB, hvtB, h⟩ := exceptBind_ok h
  unfold avgLoop at h
  have hq := exceptPure_ok h
  push_neg at hcA hcB
  refine ⟨prA, prB, vtA, vtB, hprA, hprB, hcA, hcB,
    orPanic_okk hvtA, orPanic_okk hvtB, ?_, ?_, ?_, ?_⟩
  · rw [← hq]
    show (if vtB.time < (if vtA.time < s then vtA.time else s) then vtB.time
      else (if vtA.time < s then vtA.time else s)) = min (min s vtA.time) vtB.time
    rw [if_lt_min, if_lt_min]
  · rw [← hq]
    show (if vtB.endTime > (if vtA.endTime > s then vtA.endTime else s) then vtB.endTime
      else (if vtA.endTime > s then vtA.endTime else s)) = max (max s vtA.endTime) vtB.endTime
    rw [if_gt_max, if_gt_max]
  · rw [← hq]
  · rw [← hq]


/-- C5 (amended): averaging two forecasts is order-independent up to the
first input's metadata — when the two updated stamps agree and the two
seeds (first Temperature instants) agree, the two orders return the same
averaged forecast whenever both succeed. -/
theorem C5_pair_comm (A B : ForecastGridResponse) (d1 d2 : Bool)
    (hupd : A.updated = B.updated)
    (hseed : (A.temperature.bind (fun t => t.values.head?)).map (fun v => v.time.time)
           = (B.temperature.bind (fun t => t.values.head?)).map (fun v => v.time.time))
    (h1 : (AverageForecast [A, B] d1).isOk = true)
    (h2 : (AverageForecast [B, A] d2).isOk = true) :
    (AverageForecast [A, B] d1).map (fun pr => pr.2) =
    (AverageForecast [B, A] d2).map (fun pr => pr.2) := by
  obtain ⟨p1, hp1⟩ : ∃ p, AverageForecast [A, B] d1 = .ok p := by
    cases hh : AverageForecast [A, B] d1 with
    | ok p => exact ⟨p, rfl⟩
    | error e => rw [hh] at h1; exact absurd h1 (by simp [Except.isOk, Except.toBool])
  obtain ⟨p2, hp2⟩ : ∃ p, AverageForecast [B, A] d2 = .ok p := by
    cases hh : AverageForecast [B, A] d2 with
    | ok p => exact ⟨p, rfl⟩
    | error e => rw [hh] at h2; exact absurd h2 (by simp [Except.isOk, Except.toBool])
  have hc1 := hp1
  have hc2 := hp2
  unfold AverageForecast at hc1 hc2
  obtain ⟨tA, htA, hc1⟩ := exceptBind_ok hc1
  cases hvA : tA.values with
  | nil => rw [hvA] at hc1; exact Except.noConfusion hc1
  | cons vA vAtl =>
  rw [hvA] at hc1
  obtain ⟨sA, hsA, hc1⟩ := exceptBind_ok hc1
  obtain rfl : vA.time.time = sA := Except.ok.inj hsA
  obtain ⟨q1, hq1, hc1⟩ := exceptBind_ok hc1
  obtain ⟨w1a, w2a, mea, arra, posta⟩ := q1
  obtain ⟨m1, hm1, hc1⟩ := exceptBind_ok hc1
  obtain ⟨m2, hm2, hc1⟩ := exceptBind_ok hc1
  obtain ⟨m3, hm3, hc1⟩ := exceptBind_ok hc1
  obtain ⟨m4, hm4, hc1⟩ := exceptBind_ok hc1
  obtain ⟨m5, hm5, hc1⟩ := exceptBind_ok hc1
  obtain ⟨m6, hm6, hc1⟩ := exceptBind_ok hc1
  obtain ⟨m7, hm7, hc1⟩ := exceptBind_ok hc1
  obtain ⟨res1, hres1, hc1⟩ := exceptBind_ok hc1
  have hp1v := exceptPure_ok hc1
  obtain ⟨tB, htB, hc2⟩ := exceptBind_ok hc2
  cases hvB : tB.values with
  | nil => rw [hvB] at hc2; exact Except.noConfusion hc2
  | cons vB vBtl =>
  rw [hvB] at hc2
  obtain ⟨sB, hsB, hc2⟩ := exceptBind_ok hc2
  obtain rfl : vB.time.time = sB := Except.ok.inj hsB
  obtain ⟨q2, hq2, hc2⟩ := exceptBind_ok hc2
  obtain ⟨w1b, w2b, meb, arrb, postb⟩ := q2
  obtain ⟨n1, hn1, hc2⟩ := exceptBind_ok hc2
  obtain ⟨n2, hn2, hc2⟩ := exceptBind_ok hc2
  obtain ⟨n3, hn3, hc2⟩ := exceptBind_ok hc2
  obtain ⟨n4, hn4, hc2⟩ := exceptBind_ok hc2
  obtain ⟨n5, hn5, hc2⟩ := exceptBind_ok hc2
  obtain ⟨n6, hn6, hc2⟩ := exceptBind_ok hc2
  obtain ⟨n7, hn7, hc2⟩ := exceptBind_ok hc2
  obtain ⟨res2, hres2, hc2⟩ := exceptBind_ok hc2
  have hp2v := exceptPure_ok hc2
  have hseedeq : vA.time.time = vB.time.time := by
    rw [orPanic_okk htA, orPanic_okk htB] at hseed
    simp only [Option.some_bind] at hseed
    rw [hvA, hvB] at hseed
    simp only [List.head?_cons, Option.map_some'] at hseed
    exact Option.some.inj hseed
  obtain ⟨prA, prB, vtA, vtB, hprA, hprB, hAu, hBu, hAvt, hBvt, hw1a, hw2a, hmea, harra⟩ :=
    avgLoop_pair_char hq1
  obtain ⟨prB2, prA2, vtB2, vtA2, hprB2, hprA2, hBu2, hAu2, hBvt2, hAvt2, hw1b, hw2b, hmeb, harrb⟩ :=
    avgLoop_pair_char hq2
  dsimp only at hw1a hw2a hmea harra hw1b hw2b hmeb harrb
  rw [hprA] at hprA2
  obtain rfl : prA = prA2 := Except.ok.inj hprA2
  rw [hprB] at hprB2
  obtain rfl : prB = prB2 := Except.ok.inj hprB2
  rw [hAvt] at hAvt2
  obtain rfl : vtA = vtA2 := Option.some.inj hAvt2
  rw [hBvt] at hBvt2
  obtain rfl : vtB = vtB2 := Option.some.inj hBvt2
  have hw1 : w1b = w1a := by
    rw [hw1b, hw1a, ← hseedeq, min_assoc, min_assoc, min_comm vtB.time vtA.time]
  have hw2 : w2b = w2a := by
    rw [hw2b, hw2a, ← hseedeq, max_assoc, max_assoc, max_comm vtB.endTime vtA.endTime]
  have hnn : ((List.length [B, A] : Nat) : Rat) = ((List.length [A, B] : Nat) : Rat) := rfl
  have hme : meb = mea := by
    rw [hmeb, hmea, hnn]
    ring
  subst harra
  subst harrb
  obtain ⟨a1, a2, a3, a4, a5, a6, a7, hfA1, hfA2, hfA3, hfA4, hfA5, hfA6, hfA7, hpA2⟩ :=
    timeseriesMap_pairs hprA
  obtain ⟨b1, b2, b3, b4, b5, b6, b7, hfB1, hfB2, hfB3, hfB4, hfB5, hfB6, hfB7, hpB2⟩ :=
    timeseriesMap_pairs hprB
  rw [hpA2, hpB2] at hm1 hm2 hm3 hm4 hm5 hm6 hm7 hn1 hn2 hn3 hn4 hn5 hn6 hn7
  rw [hw1, hw2] at hn1 hn2 hn3 hn4 hn5 hn6 hn7
  have he1 : n1 = m1 := avgTs_pair_comm hm1 hn1
  have he2 : n2 = m2 := avgTs_pair_comm hm2 hn2
  have he3 : n3 = m3 := avgTs_pair_comm hm3 hn3
  have he4 : n4 = m4 := avgTs_pair_comm hm4 hn4
  have he5 : n5 = m5 := avgTs_pair_comm hm5 hn5
  have he6 : n6 = m6 := avgTs_pair_comm hm6 hn6
  have he7 : n7 = m7 := avgTs_pair_comm hm7 hn7
  unfold newForecastGridResponse at hres1 hres2
  have hr1 := Except.ok.inj hres1
  have hr2 := Except.ok.inj hres2
  rw [hp1, hp2]
  show Except.ok p1.2 = Except.ok p2.2
  have hp12 : p1.2 = res1 := by rw [← hp1v]
  have hp22 : p2.2 = res2 := by rw [← hp2v]
  rw [hp12, hp22, ← hr1, ← hr2, hupd, hme, hBu, hAu, he1, he2, he3, he4, he5, he6, he7]


/-- Witness for C5: the order-independence theorem applied to two
forecasts sharing the updated stamp and the seed instant. -/
theorem C5_pair_comm_witness :
    (gridA5c.updated = gridB5c.updated ∧
      (gridA5c.temperature.bind (fun t => t.values.head?)).map (fun v => v.time.time) =
        (gridB5c.temperature.bind (fun t => t.values.head?)).map (fun v => v.time.time) ∧
      (AverageForecast [gridA5c, gridB5c] false).isOk = true ∧
      (AverageForecast [gridB5c, gridA5c] false).isOk = true) ∧
    (AverageForecast [gridA5c, gridB5c] false).map (fun pr => pr.2) =
      (AverageForecast [gridB5c, gridA5c] false).map (fun pr => pr.2) :=
  ⟨⟨rfl, rfl, by decide, by decide⟩,
    C5_pair_comm gridA5c gridB5c false false rfl rfl (by decide) (by decide)⟩

end Noaa
